import Mathlib

/-!
Verification of the habenero (Hotones) engine core against its specification.

Part 1 embeds the UDP session state machine of
`src/Hotones/src/include/GFX/SceneImporter.hpp` (NetworkManager::Impl) and
`src/Hotones/src/include/server/Packets.hpp`.

Part 2 embeds the swept-sphere collision backend of `src/unnamed/part_009`
(BVH build, sphere-vs-triangle sweep, penetration resolution, mesh registry).

Conventions of the shallow embedding: C++ float arithmetic is modelled over
the exact rationals; `sqrtf` is modelled by `ratSqrt`, which is exact on
perfect squares of rationals and rounds like `Nat.sqrt` elsewhere; `uint8_t`
arithmetic wraps modulo 256 where the source can overflow; reference
out-parameters are modelled by passing the previous value in and returning
the final value, so "untouched" is an equality with the input.
-/

namespace Habenero

namespace Net

/-- The parts of a `sockaddr_in` the server compares: `sin_addr.s_addr` and
`sin_port`. -/
structure Addr where
  ip : Nat
  port : Nat
deriving DecidableEq

/-- Server-side per-client slot (struct ClientSlot). -/
structure ClientSlot where
  addr : Addr
  id : Nat
  name : String
  active : Bool
deriving DecidableEq

def MAX_PLAYERS : Nat := 16

/-- Zero-initialized slot, as produced by `memset(clients, 0, ...)` in
`StartServer`. -/
def defaultSlot : ClientSlot := ⟨⟨0, 0⟩, 0, "", false⟩

/-- Payload of a PlayerUpdatePacket beyond the header. The server never
interprets these fields, it only relays them. -/
structure UpdateData where
  posX : ℚ
  posY : ℚ
  posZ : ℚ
  rotX : ℚ
  rotY : ℚ
deriving DecidableEq

def zeroUpdate : UpdateData := ⟨0, 0, 0, 0, 0⟩

/-- Wire packets (Packets.hpp), identified by their type code and fields. -/
inductive Packet where
  | connect (playerId : Nat) (name : String)
  | connectAck (playerId : Nat) (assignedId : Nat)
  | disconnect (playerId : Nat)
  | playerUpdate (playerId : Nat) (data : UpdateData)
deriving DecidableEq

/-- Server-side state of NetworkManager::Impl: the fixed slot array and the
`uint8_t nextId` counter. -/
structure ServerState where
  clients : List ClientSlot
  nextId : Nat
deriving DecidableEq

/-- State after `StartServer`: all 16 slots zeroed, `nextId = 1`. -/
def freshServer : ServerState := ⟨List.replicate MAX_PLAYERS defaultSlot, 1⟩

/-- `strncpy(dst, src, 15)` followed by `dst[15] = 0` on a `char[16]`. -/
def truncName (s : String) : String := s.take 15

/-- The address test used by `Server_HandleConnect` and
`Server_HandleDisconnect`: active, and both `s_addr` and `sin_port` equal. -/
def slotMatchesAddr (s : ClientSlot) (src : Addr) : Bool :=
  s.active && (s.addr.ip == src.ip) && (s.addr.port == src.port)

/-- The sender test used by `Server_HandlePlayerUpdate`: active, id equal,
and only `s_addr` equal (the source port is not compared). -/
def slotMatchesUpdate (s : ClientSlot) (senderId : Nat) (src : Addr) : Bool :=
  s.active && (s.id == senderId) && (s.addr.ip == src.ip)

/-- `Server_Broadcast`: send to every active slot whose id differs from
`excludeId`. Returns the list of (destination, packet) sends in slot order. -/
def Server_Broadcast (clients : List ClientSlot) (pkt : Packet) (excludeId : Nat) :
    List (Addr × Packet) :=
  (clients.filter (fun s => s.active && !(s.id == excludeId))).map (fun s => (s.addr, pkt))

/-- `Server_HandleConnect`. Returns the updated server state and the list of
packets sent. If the source address already holds an active slot, the
original CONNECT_ACK is re-sent and nothing changes; otherwise the first free
slot is claimed, `nextId++` (uint8) assigns the id, the ACK is sent to the
requester and a zeroed "intro" PLAYER_UPDATE is broadcast excluding the new
id. A full server sends nothing. -/
def Server_HandleConnect (st : ServerState) (src : Addr) (name : String) :
    ServerState × List (Addr × Packet) :=
  match st.clients.find? (fun s => slotMatchesAddr s src) with
  | some slot => (st, [(src, Packet.connectAck slot.id slot.id)])
  | none =>
    match st.clients.findIdx? (fun s => !s.active) with
    | none => (st, [])
    | some i =>
      let newSlot : ClientSlot := ⟨src, st.nextId, truncName name, true⟩
      let clients1 := st.clients.set i newSlot
      let intro := Server_Broadcast clients1 (Packet.playerUpdate newSlot.id zeroUpdate) newSlot.id
      (⟨clients1, (st.nextId + 1) % 256⟩, (src, Packet.connectAck newSlot.id newSlot.id) :: intro)

/-- `Server_HandleDisconnect`: on an address+port match, broadcast the
DISCONNECT under the slot's id (excluding it) and clear the active flag. -/
def Server_HandleDisconnect (st : ServerState) (src : Addr) :
    ServerState × List (Addr × Packet) :=
  match st.clients.findIdx? (fun s => slotMatchesAddr s src) with
  | none => (st, [])
  | some i =>
    let slot := st.clients.getD i defaultSlot
    let sends := Server_Broadcast st.clients (Packet.disconnect slot.id) slot.id
    (⟨st.clients.set i { slot with active := false }, st.nextId⟩, sends)

/-- `Server_HandlePlayerUpdate`: relay to all other active slots iff some
active slot has the packet's sender id and the same source IP (the port is
not checked); otherwise drop. Slot state is never modified. -/
def Server_HandlePlayerUpdate (st : ServerState) (src : Addr) (senderId : Nat)
    (data : UpdateData) : ServerState × List (Addr × Packet) :=
  if st.clients.any (fun s => slotMatchesUpdate s senderId src) then
    (st, Server_Broadcast st.clients (Packet.playerUpdate senderId data) senderId)
  else
    (st, [])

/-- Number of active (allocated) client slots. -/
def activeCount (st : ServerState) : Nat :=
  (st.clients.filter (fun s => s.active)).length

-- ── Client side ──────────────────────────────────────────────────────────────

def MAX_CONNECT_ATTEMPTS : Nat := 15

def CONNECT_RETRY_MS : Int := 500

/-- Client-side state of NetworkManager::Impl (fields used by the connect
retry logic and `IsConnected`). Times are in milliseconds. -/
structure ClientState where
  localId : Nat
  connected : Bool
  localName : String
  connectAttempts : Nat
  lastConnectAttempt : Int
deriving DecidableEq

/-- Push notifications delivered through the OnPlayerJoined / OnPlayerLeft
callbacks. -/
inductive ClientEvent where
  | playerJoined (id : Nat) (name : String)
  | playerLeft (id : Nat)
deriving DecidableEq

/-- The client state produced by `NetworkManager::Connect` (GFX build): one
CONNECT is sent immediately, `connectAttempts = 1`, and the send time is
recorded. -/
def NetworkManager_Connect (playerName : String) (now : Int) :
    ClientState × List Packet :=
  (⟨0, false, truncName playerName, 1, now⟩, [Packet.connect 0 (truncName playerName)])

/-- One pass of the retry check at the top of `RecvLoop` in client mode at
time `now`: while unacknowledged and under the attempt cap, resend CONNECT
once `CONNECT_RETRY_MS` has elapsed since the last attempt. The retry path
invokes no callback, so the event list is always empty. -/
def RecvLoop_RetryStep (cs : ClientState) (now : Int) :
    ClientState × List Packet × List ClientEvent :=
  if cs.connected = false ∧ cs.connectAttempts < MAX_CONNECT_ATTEMPTS
      ∧ CONNECT_RETRY_MS ≤ now - cs.lastConnectAttempt then
    ({ cs with lastConnectAttempt := now, connectAttempts := cs.connectAttempts + 1 },
     [Packet.connect 0 (truncName cs.localName)], [])
  else
    (cs, [], [])

/-- Iterated retry passes at the given sequence of times, collecting all
CONNECT packets sent. -/
def RecvLoop_Run (cs : ClientState) (times : List Int) : ClientState × List Packet :=
  match times with
  | [] => (cs, [])
  | now :: rest =>
    let step := RecvLoop_RetryStep cs now
    let tail := RecvLoop_Run step.1 rest
    (tail.1, step.2.1 ++ tail.2)

/-- `Client_HandleConnectAck`: record the assigned id, mark connected, and
fire OnPlayerJoined. -/
def Client_HandleConnectAck (cs : ClientState) (assignedId : Nat) :
    ClientState × List ClientEvent :=
  ({ cs with localId := assignedId, connected := true },
   [ClientEvent.playerJoined assignedId cs.localName])

/-- `NetworkManager::Disconnect` client-state effect: clear connected,
localId and the attempt counter. -/
def NetworkManager_Disconnect (cs : ClientState) : ClientState :=
  { cs with connected := false, localId := 0, connectAttempts := 0 }

/-- `NetworkManager::IsConnected`. -/
def IsConnected (cs : ClientState) : Bool := cs.connected

-- ── Shared helper lemmas ─────────────────────────────────────────────────────

theorem slotMatchesUpdate_eq_true (s : ClientSlot) (senderId : Nat) (src : Addr) :
    slotMatchesUpdate s senderId src = true ↔
      s.active = true ∧ s.id = senderId ∧ s.addr.ip = src.ip := by
  simp [slotMatchesUpdate, Bool.and_eq_true, and_assoc]

theorem slotMatchesAddr_eq_true (s : ClientSlot) (src : Addr) :
    slotMatchesAddr s src = true ↔
      s.active = true ∧ s.addr.ip = src.ip ∧ s.addr.port = src.port := by
  simp [slotMatchesAddr, Bool.and_eq_true, and_assoc]

theorem mem_Server_Broadcast {clients : List ClientSlot} {pkt : Packet}
    {excludeId : Nat} {p : Addr × Packet} :
    p ∈ Server_Broadcast clients pkt excludeId ↔
      ∃ s ∈ clients, s.active = true ∧ s.id ≠ excludeId ∧ p = (s.addr, pkt) := by
  simp only [Server_Broadcast, List.mem_map, List.mem_filter, Bool.and_eq_true,
    Bool.not_eq_true', beq_eq_false_iff_ne, ne_eq]
  constructor
  · rintro ⟨s, ⟨hs, ha, hid⟩, rfl⟩
    exact ⟨s, hs, ha, hid, rfl⟩
  · rintro ⟨s, hs, ha, hid, rfl⟩
    exact ⟨s, ⟨hs, ha, hid⟩, rfl⟩

/-- C1: CONNECT is idempotent. (i) For every server state, if a CONNECT
arrives from a source address+port that already holds an active slot, the
server re-sends a CONNECT_ACK carrying that slot's existing id and changes
nothing. (ii) Two identical CONNECT packets from the same source applied to a
fresh server yield exactly one allocated slot and two identical CONNECT_ACK
replies carrying the same assigned id. -/
theorem C1_idempotent_connect :
    (∀ (st : ServerState) (src : Addr) (name : String) (slot : ClientSlot),
      st.clients.find? (fun s => slotMatchesAddr s src) = some slot →
      Server_HandleConnect st src name = (st, [(src, Packet.connectAck slot.id slot.id)]))
    ∧ (∀ (src : Addr) (name1 name2 : String),
      activeCount (Server_HandleConnect
          (Server_HandleConnect freshServer src name1).1 src name2).1 = 1
      ∧ (Server_HandleConnect freshServer src name1).2 = [(src, Packet.connectAck 1 1)]
      ∧ (Server_HandleConnect
          (Server_HandleConnect freshServer src name1).1 src name2).2
          = [(src, Packet.connectAck 1 1)]) := by
  constructor
  · intro st src name slot h
    simp [Server_HandleConnect, h]
  · intro src name1 name2
    have h1 : Server_HandleConnect freshServer src name1 =
        (⟨⟨src, 1, truncName name1, true⟩ :: List.replicate 15 defaultSlot, 2⟩,
         [(src, Packet.connectAck 1 1)]) := rfl
    have hf : (List.find? (fun s => slotMatchesAddr s src)
        (⟨src, 1, truncName name1, true⟩ :: List.replicate 15 defaultSlot))
        = some ⟨src, 1, truncName name1, true⟩ := by
      apply List.find?_cons_of_pos
      simp [slotMatchesAddr]
    have h2 : Server_HandleConnect
        (⟨⟨src, 1, truncName name1, true⟩ :: List.replicate 15 defaultSlot, 2⟩ : ServerState)
        src name2 =
        (⟨⟨src, 1, truncName name1, true⟩ :: List.replicate 15 defaultSlot, 2⟩,
         [(src, Packet.connectAck 1 1)]) := by
      unfold Server_HandleConnect
      rw [hf]
    rw [h1, h2]
    exact ⟨rfl, rfl, rfl⟩

/-- C1 witness: the general re-ACK branch of `C1_idempotent_connect`
applied at a concrete state (one active slot at 10.0.0.1-like address),
plus the fresh double-connect consequence at a concrete address. -/
theorem C1_idempotent_connect_witness :
    Server_HandleConnect ⟨⟨⟨7, 40000⟩, 3, "abc", true⟩ :: List.replicate 15 defaultSlot, 4⟩
        ⟨7, 40000⟩ "abc"
      = (⟨⟨⟨7, 40000⟩, 3, "abc", true⟩ :: List.replicate 15 defaultSlot, 4⟩,
         [(⟨7, 40000⟩, Packet.connectAck 3 3)])
    ∧ (Server_HandleConnect
        (Server_HandleConnect freshServer ⟨7, 40000⟩ "abc").1 ⟨7, 40000⟩ "abc").2
        = [(⟨7, 40000⟩, Packet.connectAck 1 1)] :=
  ⟨C1_idempotent_connect.1 ⟨⟨⟨7, 40000⟩, 3, "abc", true⟩ :: List.replicate 15 defaultSlot, 4⟩
      ⟨7, 40000⟩ "abc" ⟨⟨7, 40000⟩, 3, "abc", true⟩ (by decide),
   (C1_idempotent_connect.2 ⟨7, 40000⟩ "abc" "abc").2.2⟩

/-- C2: broadcast exclusion. For every server state and every accepted
PLAYER_UPDATE from player X (some active slot matches id X and the source
IP), the server state is unchanged, the packet is relayed to every other
active slot (every active slot whose id differs from X receives it), and
every send targets a slot whose id differs from X — it is never echoed back
to player X. -/
theorem C2_broadcast_exclusion :
    ∀ (st : ServerState) (src : Addr) (senderId : Nat) (data : UpdateData),
    (∃ s ∈ st.clients, slotMatchesUpdate s senderId src = true) →
    (Server_HandlePlayerUpdate st src senderId data).1 = st
    ∧ (∀ s ∈ st.clients, s.active = true → s.id ≠ senderId →
        (s.addr, Packet.playerUpdate senderId data)
          ∈ (Server_HandlePlayerUpdate st src senderId data).2)
    ∧ (∀ p ∈ (Server_HandlePlayerUpdate st src senderId data).2,
        ∃ s ∈ st.clients, s.active = true ∧ s.id ≠ senderId
          ∧ p = (s.addr, Packet.playerUpdate senderId data)) := by
  intro st src senderId data hacc
  have hany : st.clients.any (fun s => slotMatchesUpdate s senderId src) = true := by
    rw [List.any_eq_true]
    exact hacc
  have hrel : Server_HandlePlayerUpdate st src senderId data
      = (st, Server_Broadcast st.clients (Packet.playerUpdate senderId data) senderId) := by
    simp [Server_HandlePlayerUpdate, hany]
  refine ⟨by rw [hrel], ?_, ?_⟩
  · intro s hs ha hid
    rw [hrel]
    exact mem_Server_Broadcast.mpr ⟨s, hs, ha, hid, rfl⟩
  · intro p hp
    rw [hrel] at hp
    exact mem_Server_Broadcast.mp hp

/-- C2 witness: a two-client server state; an accepted update from player 1
is delivered to player 2's address and to nothing else. -/
theorem C2_broadcast_exclusion_witness :
    (∃ s ∈ (⟨[⟨⟨1, 10⟩, 1, "", true⟩, ⟨⟨2, 20⟩, 2, "", true⟩], 3⟩ : ServerState).clients,
      slotMatchesUpdate s 1 ⟨1, 10⟩ = true)
    ∧ ((⟨⟨2, 20⟩, 2, "", true⟩ : ClientSlot).addr, Packet.playerUpdate 1 zeroUpdate)
        ∈ (Server_HandlePlayerUpdate ⟨[⟨⟨1, 10⟩, 1, "", true⟩, ⟨⟨2, 20⟩, 2, "", true⟩], 3⟩
            ⟨1, 10⟩ 1 zeroUpdate).2 := by
  refine ⟨by decide, ?_⟩
  exact (C2_broadcast_exclusion ⟨[⟨⟨1, 10⟩, 1, "", true⟩, ⟨⟨2, 20⟩, 2, "", true⟩], 3⟩
      ⟨1, 10⟩ 1 zeroUpdate (by decide)).2.1 ⟨⟨2, 20⟩, 2, "", true⟩ (by decide) rfl (by decide)

/-- C7 counterexample state: player 1's active slot is recorded at ip=1,
port=1000; player 2 is active at ip=2, port=2000. -/
def c7State : ServerState :=
  ⟨⟨⟨1, 1000⟩, 1, "", true⟩ :: ⟨⟨2, 2000⟩, 2, "", true⟩ :: List.replicate 14 defaultSlot, 3⟩

/-- C7 counterexample: a PLAYER_UPDATE with sender id 1 arriving from the
recorded IP but a different source port (5555 instead of the recorded 1000)
matches no slot by full address+port identity, yet the server relays it to
player 2 instead of dropping it — the claim that address AND port must
match is false on the code. -/
theorem C7_counterexample_port_ignored :
    (¬ ∃ s ∈ c7State.clients, s.active = true ∧ s.id = 1
        ∧ s.addr.ip = 1 ∧ s.addr.port = 5555)
    ∧ (Server_HandlePlayerUpdate c7State ⟨1, 5555⟩ 1 zeroUpdate).2
        = [(⟨2, 2000⟩, Packet.playerUpdate 1 zeroUpdate)] := by
  constructor
  · decide
  · rfl

/-- C7 amended: a received PLAYER_UPDATE is dropped (no relay, no state
change) unless its sender id belongs to an active slot whose recorded
source IP address matches the packet's source IP; the source port is not
compared, so slot identity for updates is id + IP address only. -/
theorem C7_amended_sender_auth :
    ∀ (st : ServerState) (src : Addr) (senderId : Nat) (data : UpdateData),
    ((¬ ∃ s ∈ st.clients, s.active = true ∧ s.id = senderId ∧ s.addr.ip = src.ip) →
      Server_HandlePlayerUpdate st src senderId data = (st, []))
    ∧ ((∃ s ∈ st.clients, s.active = true ∧ s.id = senderId ∧ s.addr.ip = src.ip) →
      Server_HandlePlayerUpdate st src senderId data
        = (st, Server_Broadcast st.clients (Packet.playerUpdate senderId data) senderId)) := by
  intro st src senderId data
  constructor
  · intro hno
    have hany : st.clients.any (fun s => slotMatchesUpdate s senderId src) = false := by
      rw [Bool.eq_false_iff]
      intro h
      rcases List.any_eq_true.mp h with ⟨s, hs, hm⟩
      exact hno ⟨s, hs, (slotMatchesUpdate_eq_true s senderId src).mp hm⟩
    simp [Server_HandlePlayerUpdate, hany]
  · intro hyes
    rcases hyes with ⟨s, hs, hm⟩
    have hany : st.clients.any (fun s => slotMatchesUpdate s senderId src) = true :=
      List.any_eq_true.mpr ⟨s, hs, (slotMatchesUpdate_eq_true s senderId src).mpr hm⟩
    simp [Server_HandlePlayerUpdate, hany]

/-- C7 amended witness: both branches at concrete inputs — an update with an
unknown sender id is dropped, an update matching id + IP is relayed. -/
theorem C7_amended_sender_auth_witness :
    Server_HandlePlayerUpdate c7State ⟨1, 1000⟩ 9 zeroUpdate = (c7State, [])
    ∧ Server_HandlePlayerUpdate c7State ⟨1, 2000⟩ 1 zeroUpdate
      = (c7State, Server_Broadcast c7State.clients (Packet.playerUpdate 1 zeroUpdate) 1) :=
  ⟨(C7_amended_sender_auth c7State ⟨1, 1000⟩ 9 zeroUpdate).1 (by decide),
   (C7_amended_sender_auth c7State ⟨1, 2000⟩ 1 zeroUpdate).2 (by decide)⟩

/-- C10: in a server state whose 16 slots are all active, a CONNECT from a
source whose address+port matches no active slot changes no server state
and produces no send at all — no CONNECT_ACK and no rejection packet. -/
theorem C10_full_server_connect_ignored :
    ∀ (st : ServerState) (src : Addr) (name : String),
    st.clients.length = MAX_PLAYERS →
    (∀ s ∈ st.clients, s.active = true) →
    (¬ ∃ s ∈ st.clients, s.active = true ∧ s.addr.ip = src.ip ∧ s.addr.port = src.port) →
    Server_HandleConnect st src name = (st, []) := by
  intro st src name _ hall hno
  have hfind : st.clients.find? (fun s => slotMatchesAddr s src) = none := by
    rw [List.find?_eq_none]
    intro s hs hm
    exact hno ⟨s, hs, (slotMatchesAddr_eq_true s src).mp hm⟩
  have hfree : st.clients.findIdx? (fun s => !s.active) = none := by
    rw [List.findIdx?_eq_none_iff]
    intro s hs
    simp [hall s hs]
  simp [Server_HandleConnect, hfind, hfree]

/-- C10 witness: a concrete fully-occupied server (ids 1..16) ignores a
CONNECT from a fresh address. -/
theorem C10_full_server_connect_ignored_witness :
    Server_HandleConnect
      ⟨(List.range MAX_PLAYERS).map (fun i => ⟨⟨i + 1, 100⟩, i + 1, "", true⟩), 17⟩
      ⟨99, 100⟩ "newbie"
    = (⟨(List.range MAX_PLAYERS).map (fun i => ⟨⟨i + 1, 100⟩, i + 1, "", true⟩), 17⟩, []) :=
  C10_full_server_connect_ignored
    ⟨(List.range MAX_PLAYERS).map (fun i => ⟨⟨i + 1, 100⟩, i + 1, "", true⟩), 17⟩
    ⟨99, 100⟩ "newbie" (by decide) (by decide) (by decide)

/-- C3: client connect retry. (i) While unacknowledged and under the cap of
15 attempts, once 500 ms have elapsed since the last attempt a retry pass
sends exactly one CONNECT, stamps the time and increments the counter, and
fires no callback; (ii) before the interval elapses nothing is sent and
nothing changes; (iii) once the cap is reached, any further sequence of
retry passes sends nothing and leaves the state unchanged — the client
stays unconnected with no push notification; (iv) a retry pass never
changes `connected` (only CONNECT_ACK sets it, only Disconnect clears it),
so `IsConnected` stays false until one of those. -/
theorem C3_client_connect_retry :
    (∀ (cs : ClientState) (now : Int),
      cs.connected = false → cs.connectAttempts < MAX_CONNECT_ATTEMPTS →
      CONNECT_RETRY_MS ≤ now - cs.lastConnectAttempt →
      RecvLoop_RetryStep cs now =
        ({ cs with lastConnectAttempt := now, connectAttempts := cs.connectAttempts + 1 },
         [Packet.connect 0 (truncName cs.localName)], []))
    ∧ (∀ (cs : ClientState) (now : Int),
      now - cs.lastConnectAttempt < CONNECT_RETRY_MS →
      RecvLoop_RetryStep cs now = (cs, [], []))
    ∧ (∀ (cs : ClientState) (times : List Int),
      MAX_CONNECT_ATTEMPTS ≤ cs.connectAttempts →
      RecvLoop_Run cs times = (cs, []))
    ∧ (∀ (cs : ClientState) (now : Int),
      IsConnected (RecvLoop_RetryStep cs now).1 = IsConnected cs
      ∧ (RecvLoop_RetryStep cs now).2.2 = [])
    ∧ (∀ (cs : ClientState) (assignedId : Nat),
      IsConnected (Client_HandleConnectAck cs assignedId).1 = true)
    ∧ (∀ cs : ClientState, IsConnected (NetworkManager_Disconnect cs) = false) := by
  refine ⟨?_, ?_, ?_, ?_, ?_, ?_⟩
  · intro cs now hc hn hel
    simp [RecvLoop_RetryStep, hc, hn, hel]
  · intro cs now hel
    have : ¬ (cs.connected = false ∧ cs.connectAttempts < MAX_CONNECT_ATTEMPTS
        ∧ CONNECT_RETRY_MS ≤ now - cs.lastConnectAttempt) := by
      rintro ⟨_, _, h⟩
      omega
    simp [RecvLoop_RetryStep, this]
  · intro cs times hcap
    induction times with
    | nil => rfl
    | cons now rest ih =>
      have hstep : RecvLoop_RetryStep cs now = (cs, [], []) := by
        have : ¬ (cs.connected = false ∧ cs.connectAttempts < MAX_CONNECT_ATTEMPTS
            ∧ CONNECT_RETRY_MS ≤ now - cs.lastConnectAttempt) := by
          rintro ⟨_, h, _⟩
          omega
        simp [RecvLoop_RetryStep, this]
      simp [RecvLoop_Run, hstep, ih]
  · intro cs now
    unfold RecvLoop_RetryStep
    constructor
    · split <;> rfl
    · split <;> rfl
  · intro cs assignedId
    rfl
  · intro cs
    rfl

/-- C3 witness: each conjunct of `C3_client_connect_retry` at a concrete
client state — a due retry fires at attempt 3, a 499 ms wait does not, and
a capped client (15 attempts) ignores three further passes. -/
theorem C3_client_connect_retry_witness :
    RecvLoop_RetryStep ⟨0, false, "p", 3, 1000⟩ 1500 =
      (⟨0, false, "p", 4, 1500⟩, [Packet.connect 0 (truncName "p")], [])
    ∧ RecvLoop_RetryStep ⟨0, false, "p", 3, 1000⟩ 1499 = (⟨0, false, "p", 3, 1000⟩, [], [])
    ∧ RecvLoop_Run ⟨0, false, "p", 15, 1000⟩ [2000, 3000, 4000] =
      (⟨0, false, "p", 15, 1000⟩, []) :=
  ⟨C3_client_connect_retry.1 ⟨0, false, "p", 3, 1000⟩ 1500 rfl (by decide) (by decide),
   C3_client_connect_retry.2.1 ⟨0, false, "p", 3, 1000⟩ 1499 (by decide),
   C3_client_connect_retry.2.2.1 ⟨0, false, "p", 15, 1000⟩ [2000, 3000, 4000] (by decide)⟩

/-- One CONNECT/DISCONNECT cycle from the fixed address ip=5, port=777:
the server accepts the connect, then frees the slot on disconnect, leaving
`nextId` advanced by one (mod 256). -/
def connectCycle (st : ServerState) : ServerState :=
  (Server_HandleDisconnect (Server_HandleConnect st ⟨5, 777⟩ "p").1 ⟨5, 777⟩).1

/-- Server state after n complete connect/disconnect cycles from ip=5,
port=777 (for 1 ≤ n): slot 0 holds the stale record with the last assigned
id and the active flag cleared; `nextId` has advanced n times mod 256. -/
def stateAfter (n : Nat) : ServerState :=
  ⟨⟨⟨5, 777⟩, n, truncName "p", false⟩ :: List.replicate 15 defaultSlot, (n + 1) % 256⟩

theorem connectCycle_fresh : connectCycle freshServer = stateAfter 1 := rfl

theorem connectCycle_stateAfter (n : Nat) :
    connectCycle (stateAfter n) = stateAfter ((n + 1) % 256) := rfl

theorem iterate_connectCycle (k : Nat) :
    connectCycle^[k + 1] freshServer = stateAfter ((k + 1) % 256) := by
  induction k with
  | zero => exact connectCycle_fresh
  | succ k ih =>
    rw [Function.iterate_succ_apply', ih, connectCycle_stateAfter]
    congr 1
    omega

/-- C9 (code bug): the id range invariant fails. `nextId` is a `uint8_t`
incremented on every accepted CONNECT with no wraparound guard, so after 254
connect/disconnect cycles the 255th CONNECT assigns id 255 (reserved as the
broadcast-exclusion sentinel 0xFF, and outside the documented 1..254 range),
and the 256th assigns id 0 (documented as reserved for "unassigned"). -/
theorem C9_id_range_violated_by_wraparound :
    ((Server_HandleConnect (connectCycle^[254] freshServer) ⟨5, 777⟩ "p").1.clients.any
      (fun s => s.active && (s.id == 255))) = true
    ∧ ((Server_HandleConnect (connectCycle^[255] freshServer) ⟨5, 777⟩ "p").1.clients.any
      (fun s => s.active && (s.id == 0))) = true := by
  have e1 : (253 : Nat) + 1 = 254 := rfl
  have e2 : (254 : Nat) % 256 = 254 := rfl
  have e3 : (254 : Nat) + 1 = 255 := rfl
  have e4 : (255 : Nat) % 256 = 255 := rfl
  have h254 : connectCycle^[254] freshServer = stateAfter 254 := by
    have h := iterate_connectCycle 253
    rw [e1, e2] at h
    exact h
  have h255 : connectCycle^[255] freshServer = stateAfter 255 := by
    have h := iterate_connectCycle 254
    rw [e3, e4] at h
    exact h
  constructor
  · rw [h254]; decide
  · rw [h255]; decide

end Net

namespace Phys

/-- raylib Vector3 over exact rationals. -/
structure V3 where
  x : ℚ
  y : ℚ
  z : ℚ
deriving DecidableEq

def v3add (a b : V3) : V3 := ⟨a.x + b.x, a.y + b.y, a.z + b.z⟩

def v3sub (a b : V3) : V3 := ⟨a.x - b.x, a.y - b.y, a.z - b.z⟩

def v3scale (a : V3) (s : ℚ) : V3 := ⟨a.x * s, a.y * s, a.z * s⟩

def v3dot (a b : V3) : ℚ := a.x * b.x + a.y * b.y + a.z * b.z

def v3cross (a b : V3) : V3 :=
  ⟨a.y * b.z - a.z * b.y, a.z * b.x - a.x * b.z, a.x * b.y - a.y * b.x⟩

/-- Floor integer square root by binary search on the invariant
lo*lo ≤ n < hi*hi, structurally recursive on a fuel that bounds the number
of bisection steps. -/
def isqrtGo (n : Nat) : Nat → Nat → Nat → Nat
  | 0, lo, _hi => lo
  | fuel + 1, lo, hi =>
    if hi ≤ lo + 1 then lo
    else
      let mid := (lo + hi) / 2
      if mid * mid ≤ n then isqrtGo n fuel mid hi else isqrtGo n fuel lo mid

/-- Floor integer square root (equal to Nat.sqrt). -/
def isqrt (n : Nat) : Nat := isqrtGo n n 0 (n + 1)

/-- Model of `sqrtf` on exact rationals: exact on perfect squares of
rationals (the only values the verified properties depend on), and rounds
through the floor integer square root elsewhere, mirroring the inexactness
of the float original deterministically. Negative inputs (never produced by
the guarded call sites) map to 0. -/
def ratSqrt (q : ℚ) : ℚ :=
  if q ≤ 0 then 0 else (isqrt q.num.toNat : ℚ) / (isqrt q.den : ℚ)

/-- Vector3Length. -/
def v3len (a : V3) : ℚ := ratSqrt (v3dot a a)

/-- raylib Vector3Normalize: divides by the length, substituting 1 when the
length is zero. -/
def v3norm (a : V3) : V3 :=
  let l := v3len a
  let l1 := if l = 0 then 1 else l
  v3scale a (1 / l1)

/-- FLT_MAX, the "no hit" sentinel. -/
def FLT_MAX : ℚ := 340282346638528859811704183484516925440

/-- 1e-10f: degenerate-segment / degenerate-edge guard. -/
def EPS_SEG : ℚ := 1 / 10000000000

/-- 1e-8f: parallel-plane guard in the face test. -/
def EPS_PLANE : ℚ := 1 / 100000000

/-- 1e-4f: footprint tolerance in the face test. -/
def EPS_FOOT : ℚ := 1 / 10000

/-- 1e-6f: zero-normal guard and the tolerance on t beyond 1. -/
def EPS_T : ℚ := 1 / 1000000

/-- ClosestPtTriangle — Ericson section 5.1.5, all 7 Voronoi regions. -/
def ClosestPtTriangle (p a b c : V3) : V3 :=
  let ab := v3sub b a
  let ac := v3sub c a
  let ap := v3sub p a
  let d1 := v3dot ab ap
  let d2 := v3dot ac ap
  if d1 ≤ 0 ∧ d2 ≤ 0 then a else
  let bp := v3sub p b
  let d3 := v3dot ab bp
  let d4 := v3dot ac bp
  if d3 ≥ 0 ∧ d4 ≤ d3 then b else
  let vc := d1 * d4 - d3 * d2
  if vc ≤ 0 ∧ d1 ≥ 0 ∧ d3 ≤ 0 then v3add a (v3scale ab (d1 / (d1 - d3))) else
  let cp := v3sub p c
  let d5 := v3dot ab cp
  let d6 := v3dot ac cp
  if d6 ≥ 0 ∧ d5 ≤ d6 then c else
  let vb := d5 * d2 - d1 * d6
  if vb ≤ 0 ∧ d2 ≥ 0 ∧ d6 ≤ 0 then v3add a (v3scale ac (d2 / (d2 - d6))) else
  let va := d3 * d6 - d5 * d4
  let denom := d4 - d3 + d5 - d6
  if va ≤ 0 ∧ denom > 0 then v3add b (v3scale (v3sub c b) ((d4 - d3) / denom)) else
  let dv := 1 / (va + vb + vc)
  v3add a (v3add (v3scale ab (vb * dv)) (v3scale ac (vc * dv)))

/-- RaySphere: earliest quadratic root within the window, else FLT_MAX. -/
def RaySphere (o d c : V3) (r tMin tMax : ℚ) : ℚ :=
  let oc := v3sub o c
  let A := v3dot d d
  let B := 2 * v3dot oc d
  let C := v3dot oc oc - r * r
  let disc := B * B - 4 * A * C
  if disc < 0 then FLT_MAX else
  let sqrtD := ratSqrt disc
  let t1 := (-B - sqrtD) / (2 * A)
  if tMin ≤ t1 ∧ t1 ≤ tMax then t1 else
  let t2 := (-B + sqrtD) / (2 * A)
  if tMin ≤ t2 ∧ t2 ≤ tMax then t2 else FLT_MAX

/-- RayCylinder: earliest lateral intersection with the infinite cylinder
around segment a-b, accepted only when the chosen root's hit point projects
into the segment. -/
def RayCylinder (ro rd a b : V3) (r tMin tMax : ℚ) : ℚ :=
  let ab := v3sub b a
  let ao := v3sub ro a
  let abLen2 := v3dot ab ab
  if abLen2 < EPS_SEG then FLT_MAX else
  let rdDotAb := v3dot rd ab / abLen2
  let aoDotAb := v3dot ao ab / abLen2
  let dPerp := v3sub rd (v3scale ab rdDotAb)
  let oPerp := v3sub ao (v3scale ab aoDotAb)
  let A := v3dot dPerp dPerp
  let B := 2 * v3dot oPerp dPerp
  let C := v3dot oPerp oPerp - r * r
  let disc := B * B - 4 * A * C
  if disc < 0 ∨ A < EPS_SEG then FLT_MAX else
  let sqrtD := ratSqrt disc
  let t1 := (-B - sqrtD) / (2 * A)
  let tSel : Option ℚ :=
    if t1 < tMin ∨ tMax < t1 then
      let t2 := (-B + sqrtD) / (2 * A)
      if t2 < tMin ∨ tMax < t2 then none else some t2
    else some t1
  match tSel with
  | none => FLT_MAX
  | some t =>
    let hitPt := v3add ro (v3scale rd t)
    let proj := v3dot (v3sub hitPt a) ab / abLen2
    if proj < 0 ∨ 1 < proj then FLT_MAX else t

/-- One signed inflated-plane (face) sub-test of the sweep, updating the
running (bestT, bestN). -/
def sweepFace (start d : V3) (radius : ℚ) (ta tb tc triNorm : V3) (sgn : ℚ)
    (best : ℚ × V3) : ℚ × V3 :=
  let nDotD := v3dot triNorm d
  let planePoint := v3add ta (v3scale triNorm (sgn * radius))
  let nDotOs := v3dot triNorm (v3sub planePoint start)
  let t := nDotOs / nDotD
  if 0 ≤ t ∧ t < best.1 then
    let hitPt := v3add start (v3scale d t)
    let onPlane := v3sub hitPt (v3scale triNorm (sgn * radius))
    let closest := ClosestPtTriangle onPlane ta tb tc
    if v3len (v3sub onPlane closest) < EPS_FOOT then (t, v3scale triNorm sgn) else best
  else best

/-- One edge-capsule sub-test of the sweep. -/
def sweepEdge (start d : V3) (radius : ℚ) (e0 e1 : V3) (best : ℚ × V3) : ℚ × V3 :=
  let t := RayCylinder start d e0 e1 radius 0 best.1
  if t < best.1 then
    let hitPt := v3add start (v3scale d t)
    let ab := v3sub e1 e0
    let abL2 := v3dot ab ab
    let proj0 := if EPS_SEG < abL2 then v3dot (v3sub hitPt e0) ab / abL2 else 0
    let proj := if proj0 < 0 then 0 else if 1 < proj0 then 1 else proj0
    let closest := v3add e0 (v3scale ab proj)
    let n := v3sub hitPt closest
    let nlen := v3len n
    if EPS_T < nlen then (t, v3scale n (1 / nlen)) else best
  else best

/-- One vertex-sphere sub-test of the sweep. -/
def sweepVert (start d : V3) (radius : ℚ) (v : V3) (best : ℚ × V3) : ℚ × V3 :=
  let t := RaySphere start d v radius 0 best.1
  if t < best.1 then
    let hitPt := v3add start (v3scale d t)
    let n := v3sub hitPt v
    let nlen := v3len n
    if EPS_T < nlen then (t, v3scale n (1 / nlen)) else best
  else best

/-- SweepSphereTriangle: continuous sphere-vs-triangle sweep. Returns the
pair (t, contact normal); t = FLT_MAX means no hit and the normal component
is then ignored by every caller (the C++ leaves the out-parameter
unassigned in that case). Sub-test order matches the source: the two signed
face planes (sign -1 then +1), the three edge capsules ab, bc, ca, then the
three vertex spheres a, b, c; a final earliest t above 1 + 1e-6 is
discarded. -/
def SweepSphereTriangle (start endP : V3) (radius : ℚ) (ta tb tc : V3) : ℚ × V3 :=
  let d := v3sub endP start
  let segLen := v3len d
  if segLen < EPS_SEG then (FLT_MAX, ⟨0, 1, 0⟩) else
  let triNorm := v3norm (v3cross (v3sub tb ta) (v3sub tc ta))
  let best0 : ℚ × V3 := (FLT_MAX, triNorm)
  let best1 :=
    if EPS_PLANE < |v3dot triNorm d| then
      sweepFace start d radius ta tb tc triNorm 1
        (sweepFace start d radius ta tb tc triNorm (-1) best0)
    else best0
  let best2 := sweepEdge start d radius tc ta
      (sweepEdge start d radius tb tc (sweepEdge start d radius ta tb best1))
  let best3 := sweepVert start d radius tc
      (sweepVert start d radius tb (sweepVert start d radius ta best2))
  if 1 + EPS_T < best3.1 then (FLT_MAX, best3.2) else best3

-- ── BVH ─────────────────────────────────────────────────────────────────────

/-- struct Tri: three vertices plus the centroid stored at registration. -/
structure Tri where
  a : V3
  b : V3
  c : V3
  centroid : V3
deriving DecidableEq

/-- The BVH node array of the source encodes a binary tree (leaf ranges
into the reordered triangle list; internal nodes with left child at
index+1 and an explicit right child index). This embedding represents that
tree directly. -/
inductive BVHTree where
  | leaf (bmin bmax : V3) (triStart triCount : Nat)
  | node (bmin bmax : V3) (left right : BVHTree)
deriving DecidableEq

def v3min (a b : V3) : V3 := ⟨min a.x b.x, min a.y b.y, min a.z b.z⟩

def v3max (a b : V3) : V3 := ⟨max a.x b.x, max a.y b.y, max a.z b.z⟩

/-- TriAabbMin. -/
def triMin (t : Tri) : V3 :=
  ⟨min t.a.x (min t.b.x t.c.x), min t.a.y (min t.b.y t.c.y), min t.a.z (min t.b.z t.c.z)⟩

/-- TriAabbMax. -/
def triMax (t : Tri) : V3 :=
  ⟨max t.a.x (max t.b.x t.c.x), max t.a.y (max t.b.y t.c.y), max t.a.z (max t.b.z t.c.z)⟩

/-- AABB of a non-empty triangle list, folded exactly as in BuildNode. The
value for an empty list is never used. -/
def listBox : List Tri → V3 × V3
  | [] => (⟨0, 0, 0⟩, ⟨0, 0, 0⟩)
  | t0 :: rest =>
    (rest.foldl (fun bm t => v3min bm (triMin t)) (triMin t0),
     rest.foldl (fun bM t => v3max bM (triMax t)) (triMax t0))

/-- The subrange tris[s..e) that a BuildNode call works on. -/
def slice (tris : List Tri) (s e : Nat) : List Tri := (tris.drop s).take (e - s)

/-- Centroid coordinate along the chosen split axis. -/
def coordAxis (v : V3) (axis : Nat) : ℚ :=
  if axis = 0 then v.x else if axis = 1 then v.y else v.z

/-- The split axis of a range: the longest extent of its AABB, as in
BuildNode. -/
def splitAxis (sl : List Tri) : Nat :=
  let bb := listBox sl
  let ext := v3sub bb.2 bb.1
  if ext.x > ext.y ∧ ext.x > ext.z then 0 else if ext.y > ext.z then 1 else 2

/-- The mean centroid coordinate of a range along its split axis (the sum
is divided by the range's count, as in BuildNode). -/
def splitMid (sl : List Tri) (count : Nat) : ℚ :=
  (sl.foldl (fun acc t => acc + coordAxis t.centroid (splitAxis sl)) 0) / (count : ℚ)

/-- The partition predicate of BuildNode: centroid coordinate strictly
below the mean. -/
def belowMid (sl : List Tri) (count : Nat) (t : Tri) : Bool :=
  decide (coordAxis t.centroid (splitAxis sl) < splitMid sl count)

/-- The split index chosen by BuildNode for the range tris[s..e): the
partition point around the mean centroid, replaced by the index bisection
`s + count / 2` when the partition is degenerate. -/
def splitIndex (tris : List Tri) (s e : Nat) : Nat :=
  let sl := slice tris s e
  let split0 := s + (sl.filter (belowMid sl (e - s))).length
  if split0 = s ∨ split0 = e then s + (e - s) / 2 else split0

theorem splitIndex_bounds (tris : List Tri) (s e : Nat) (h5 : 5 ≤ e - s) :
    s < splitIndex tris s e ∧ splitIndex tris s e < e := by
  unfold splitIndex
  have hlen : ((slice tris s e).filter (belowMid (slice tris s e) (e - s))).length ≤ e - s := by
    calc ((slice tris s e).filter (belowMid (slice tris s e) (e - s))).length
        ≤ (slice tris s e).length := List.length_filter_le _ _
      _ ≤ e - s := by
          simp [slice]
  by_cases hdeg : s + ((slice tris s e).filter (belowMid (slice tris s e) (e - s))).length = s
      ∨ s + ((slice tris s e).filter (belowMid (slice tris s e) (e - s))).length = e
  · simp only [if_pos hdeg]
    omega
  · simp only [if_neg hdeg]
    simp only [not_or] at hdeg
    omega

/-- The triangle list after std::partition has reordered the subrange
tris[s..e) around the mean-centroid predicate: the prefix and suffix are
untouched and the subrange is split into the below-mean part followed by
the rest. -/
def partList (tris : List Tri) (s e : Nat) : List Tri :=
  tris.take s ++ (slice tris s e).filter (belowMid (slice tris s e) (e - s))
    ++ (slice tris s e).filter (fun t => !(belowMid (slice tris s e) (e - s) t))
    ++ tris.drop e

/-- BuildNode. Computes the AABB of the range, makes a leaf for up to 4
triangles, otherwise partitions the range around the mean centroid of the
longest axis (index-bisection fallback on a degenerate split) and recurses.
The triangle list is threaded through because std::partition reorders the
subrange in place; std::partition leaves the relative order of the two
classes unspecified, so the stable partition (filter/filter-not) is used
here; every invariant proved below is independent of the order chosen. -/
def BuildNode (tris : List Tri) (s e : Nat) : List Tri × BVHTree :=
  let bb := listBox (slice tris s e)
  if _hc : e - s ≤ 4 then
    (tris, BVHTree.leaf bb.1 bb.2 s (e - s))
  else
    let split := splitIndex tris s e
    let resL := BuildNode (partList tris s e) s split
    let resR := BuildNode resL.1 split e
    (resR.1, BVHTree.node bb.1 bb.2 resL.2 resR.2)
termination_by e - s
decreasing_by
  · have h5 : 5 ≤ e - s := by omega
    have hb := splitIndex_bounds tris s e h5
    omega
  · have h5 : 5 ≤ e - s := by omega
    have hb := splitIndex_bounds tris s e h5
    omega

/-- BVH::Build: empty input yields an empty tree (modelled as `none`);
otherwise BuildNode over the whole list. -/
def BVH_Build (inTris : List Tri) : Option (List Tri × BVHTree) :=
  if inTris.isEmpty then none else some (BuildNode inTris 0 inTris.length)

-- ── BVH structural invariants ────────────────────────────────────────────────

def defTri : Tri := ⟨⟨0, 0, 0⟩, ⟨0, 0, 0⟩, ⟨0, 0, 0⟩, ⟨0, 0, 0⟩⟩

/-- Componentwise order on corners. -/
def vLe (a b : V3) : Prop := a.x ≤ b.x ∧ a.y ≤ b.y ∧ a.z ≤ b.z

/-- Point containment in an AABB. -/
def inBox (bmin bmax p : V3) : Prop :=
  bmin.x ≤ p.x ∧ p.x ≤ bmax.x ∧ bmin.y ≤ p.y ∧ p.y ≤ bmax.y ∧ bmin.z ≤ p.z ∧ p.z ≤ bmax.z

def treeMin : BVHTree → V3
  | .leaf bmin _ _ _ => bmin
  | .node bmin _ _ _ => bmin

def treeMax : BVHTree → V3
  | .leaf _ bmax _ _ => bmax
  | .node _ bmax _ _ => bmax

/-- Claim (a): every leaf holds between 1 and 4 triangles. -/
def leavesSmall : BVHTree → Prop
  | .leaf _ _ _ tc => 1 ≤ tc ∧ tc ≤ 4
  | .node _ _ l r => leavesSmall l ∧ leavesSmall r

/-- The number of leaves whose range owns index i. -/
def owners : BVHTree → Nat → Nat
  | .leaf _ _ ts tc, i => if ts ≤ i ∧ i < ts + tc then 1 else 0
  | .node _ _ l r, i => owners l i + owners r i

/-- The leaf ranges of the tree tile the index interval from s to e, in
order and without gaps or overlaps. -/
def Tiles : BVHTree → Nat → Nat → Prop
  | .leaf _ _ ts tc, s, e => ts = s ∧ s + tc = e
  | .node _ _ l r, s, e => ∃ m, s ≤ m ∧ m ≤ e ∧ Tiles l s m ∧ Tiles r m e

/-- Claim (c): the three vertices of every triangle of every leaf range lie
within that leaf's box. -/
def leafTrisInBox (tris : List Tri) : BVHTree → Prop
  | .leaf bmin bmax ts tc => ∀ i, ts ≤ i → i < ts + tc →
      inBox bmin bmax (tris.getD i defTri).a ∧ inBox bmin bmax (tris.getD i defTri).b
        ∧ inBox bmin bmax (tris.getD i defTri).c
  | .node _ _ l r => leafTrisInBox tris l ∧ leafTrisInBox tris r

/-- Claim (d): every internal node's box contains both children's boxes. -/
def childBoxesContained : BVHTree → Prop
  | .leaf _ _ _ _ => True
  | .node bmin bmax l r =>
      vLe bmin (treeMin l) ∧ vLe (treeMax l) bmax
        ∧ vLe bmin (treeMin r) ∧ vLe (treeMax r) bmax
        ∧ childBoxesContained l ∧ childBoxesContained r

theorem vLe_refl (a : V3) : vLe a a := ⟨le_refl _, le_refl _, le_refl _⟩

theorem vLe_trans {a b c : V3} (h1 : vLe a b) (h2 : vLe b c) : vLe a c :=
  ⟨le_trans h1.1 h2.1, le_trans h1.2.1 h2.2.1, le_trans h1.2.2 h2.2.2⟩

theorem v3min_le_left (a b : V3) : vLe (v3min a b) a :=
  ⟨min_le_left _ _, min_le_left _ _, min_le_left _ _⟩

theorem v3min_le_right (a b : V3) : vLe (v3min a b) b :=
  ⟨min_le_right _ _, min_le_right _ _, min_le_right _ _⟩

theorem le_v3min {a b c : V3} (h1 : vLe a b) (h2 : vLe a c) : vLe a (v3min b c) :=
  ⟨le_min h1.1 h2.1, le_min h1.2.1 h2.2.1, le_min h1.2.2 h2.2.2⟩

theorem v3max_le_left (a b : V3) : vLe a (v3max a b) :=
  ⟨le_max_left _ _, le_max_left _ _, le_max_left _ _⟩

theorem v3max_le_right (a b : V3) : vLe b (v3max a b) :=
  ⟨le_max_right _ _, le_max_right _ _, le_max_right _ _⟩

theorem v3max_le {a b c : V3} (h1 : vLe a c) (h2 : vLe b c) : vLe (v3max a b) c :=
  ⟨max_le h1.1 h2.1, max_le h1.2.1 h2.2.1, max_le h1.2.2 h2.2.2⟩

theorem tri_vertices_in_box (t : Tri) :
    inBox (triMin t) (triMax t) t.a ∧ inBox (triMin t) (triMax t) t.b
      ∧ inBox (triMin t) (triMax t) t.c := by
  refine ⟨⟨?_, ?_, ?_, ?_, ?_, ?_⟩, ⟨?_, ?_, ?_, ?_, ?_, ?_⟩, ⟨?_, ?_, ?_, ?_, ?_, ?_⟩⟩ <;>
    simp [triMin, triMax, min_le_iff, le_max_iff, le_refl]

theorem inBox_of_le {bmin1 bmax1 bmin2 bmax2 p : V3} (h1 : vLe bmin1 bmin2)
    (h2 : vLe bmax2 bmax1) (hp : inBox bmin2 bmax2 p) : inBox bmin1 bmax1 p :=
  ⟨le_trans h1.1 hp.1, le_trans hp.2.1 h2.1,
   le_trans h1.2.1 hp.2.2.1, le_trans hp.2.2.2.1 h2.2.1,
   le_trans h1.2.2 hp.2.2.2.2.1, le_trans hp.2.2.2.2.2 h2.2.2⟩

theorem foldl_v3min_lb (c : V3) (l : List Tri) (init : V3) (hc : vLe c init)
    (hall : ∀ t ∈ l, vLe c (triMin t)) :
    vLe c (l.foldl (fun bm t => v3min bm (triMin t)) init) := by
  induction l generalizing init with
  | nil => exact hc
  | cons t rest ih =>
    rw [List.foldl_cons]
    exact ih (v3min init (triMin t)) (le_v3min hc (hall t (List.mem_cons_self t rest)))
      (fun u hu => hall u (List.mem_cons_of_mem t hu))

theorem foldl_v3min_le_init (l : List Tri) (init : V3) :
    vLe (l.foldl (fun bm t => v3min bm (triMin t)) init) init := by
  induction l generalizing init with
  | nil => exact vLe_refl init
  | cons t rest ih =>
    rw [List.foldl_cons]
    exact vLe_trans (ih (v3min init (triMin t))) (v3min_le_left _ _)

theorem foldl_v3min_le_mem (l : List Tri) (init : V3) (t : Tri) (ht : t ∈ l) :
    vLe (l.foldl (fun bm t => v3min bm (triMin t)) init) (triMin t) := by
  induction l generalizing init with
  | nil => simp at ht
  | cons u rest ih =>
    rw [List.foldl_cons]
    rcases List.mem_cons.mp ht with rfl | ht2
    · exact vLe_trans (foldl_v3min_le_init rest (v3min init (triMin t)))
        (v3min_le_right _ _)
    · exact ih (v3min init (triMin u)) ht2

theorem foldl_v3max_ub (c : V3) (l : List Tri) (init : V3) (hc : vLe init c)
    (hall : ∀ t ∈ l, vLe (triMax t) c) :
    vLe (l.foldl (fun bM t => v3max bM (triMax t)) init) c := by
  induction l generalizing init with
  | nil => exact hc
  | cons t rest ih =>
    rw [List.foldl_cons]
    exact ih (v3max init (triMax t)) (v3max_le hc (hall t (List.mem_cons_self t rest)))
      (fun u hu => hall u (List.mem_cons_of_mem t hu))

theorem foldl_v3max_ge_init (l : List Tri) (init : V3) :
    vLe init (l.foldl (fun bM t => v3max bM (triMax t)) init) := by
  induction l generalizing init with
  | nil => exact vLe_refl init
  | cons t rest ih =>
    rw [List.foldl_cons]
    exact vLe_trans (v3max_le_left _ _) (ih (v3max init (triMax t)))

theorem foldl_v3max_ge_mem (l : List Tri) (init : V3) (t : Tri) (ht : t ∈ l) :
    vLe (triMax t) (l.foldl (fun bM t => v3max bM (triMax t)) init) := by
  induction l generalizing init with
  | nil => simp at ht
  | cons u rest ih =>
    rw [List.foldl_cons]
    rcases List.mem_cons.mp ht with rfl | ht2
    · exact vLe_trans (v3max_le_right _ _) (foldl_v3max_ge_init rest (v3max init (triMax t)))
    · exact ih (v3max init (triMax u)) ht2

theorem listBox_bounds (l : List Tri) (t : Tri) (ht : t ∈ l) :
    vLe (listBox l).1 (triMin t) ∧ vLe (triMax t) (listBox l).2 := by
  cases l with
  | nil => simp at ht
  | cons t0 rest =>
    rw [listBox]
    rcases List.mem_cons.mp ht with rfl | ht2
    · exact ⟨vLe_trans (foldl_v3min_le_init rest (triMin t)) (vLe_refl _),
        vLe_trans (vLe_refl _) (foldl_v3max_ge_init rest (triMax t))⟩
    · exact ⟨foldl_v3min_le_mem rest (triMin t0) t ht2,
        foldl_v3max_ge_mem rest (triMax t0) t ht2⟩

theorem listBox_mono (l1 l2 : List Tri) (h2 : l2 ≠ [])
    (hsub : ∀ t ∈ l2, t ∈ l1) :
    vLe (listBox l1).1 (listBox l2).1 ∧ vLe (listBox l2).2 (listBox l1).2 := by
  cases l2 with
  | nil => exact absurd rfl h2
  | cons t0 rest =>
    rw [listBox]
    constructor
    · exact foldl_v3min_lb (listBox l1).1 rest (triMin t0)
        (listBox_bounds l1 t0 (hsub t0 (List.mem_cons_self t0 rest))).1
        (fun u hu => (listBox_bounds l1 u (hsub u (List.mem_cons_of_mem t0 hu))).1)
    · exact foldl_v3max_ub (listBox l1).2 rest (triMax t0)
        (listBox_bounds l1 t0 (hsub t0 (List.mem_cons_self t0 rest))).2
        (fun u hu => (listBox_bounds l1 u (hsub u (List.mem_cons_of_mem t0 hu))).2)

theorem slice_length {tris : List Tri} {s e : Nat} (hs : s ≤ e) (he : e ≤ tris.length) :
    (slice tris s e).length = e - s := by
  simp only [slice, List.length_take, List.length_drop]
  omega

theorem slice_append (x : List Tri) (s m e : Nat) (h1 : s ≤ m) (h2 : m ≤ e) :
    slice x s e = slice x s m ++ slice x m e := by
  rw [slice, slice, slice]
  have hsum : e - s = (m - s) + (e - m) := by omega
  rw [hsum, List.take_add, List.drop_drop]
  have : s + (m - s) = m := by omega
  rw [this]

theorem slice_congr_take {x y : List Tri} {m s e : Nat} (hxy : x.take m = y.take m)
    (he : e ≤ m) : slice x s e = slice y s e := by
  rw [slice, slice]
  have hx : (x.drop s).take (e - s) = ((x.take m).drop s).take (e - s) := by
    rw [List.drop_take, List.take_take]
    congr 1
    omega
  have hy : (y.drop s).take (e - s) = ((y.take m).drop s).take (e - s) := by
    rw [List.drop_take, List.take_take]
    congr 1
    omega
  rw [hx, hy, hxy]

theorem slice_congr_drop {x y : List Tri} {m s e : Nat} (hxy : x.drop m = y.drop m)
    (hs : m ≤ s) : slice x s e = slice y s e := by
  rw [slice, slice]
  have hx : x.drop s = (x.drop m).drop (s - m) := by
    rw [List.drop_drop]
    congr 1
    omega
  have hy : y.drop s = (y.drop m).drop (s - m) := by
    rw [List.drop_drop]
    congr 1
    omega
  rw [hx, hy, hxy]

theorem getD_congr_take {x y : List Tri} {m i : Nat} (hxy : x.take m = y.take m)
    (hi : i < m) : x.getD i defTri = y.getD i defTri := by
  rw [List.getD_eq_getElem?_getD, List.getD_eq_getElem?_getD,
    ← List.getElem?_take_of_lt (l := x) hi, ← List.getElem?_take_of_lt (l := y) hi, hxy]

theorem getD_mem_slice {x : List Tri} {s e i : Nat} (h1 : s ≤ i) (h2 : i < e)
    (h3 : e ≤ x.length) : x.getD i defTri ∈ slice x s e := by
  have hlen : (slice x s e).length = e - s := slice_length (by omega) h3
  have hidx : i - s < (slice x s e).length := by omega
  have hval : x.getD i defTri = (slice x s e).getD (i - s) defTri := by
    rw [List.getD_eq_getElem?_getD, List.getD_eq_getElem?_getD, slice,
      List.getElem?_take_of_lt (by omega : i - s < e - s), List.getElem?_drop]
    have : s + (i - s) = i := by omega
    rw [this]
  rw [hval, List.getD_eq_getElem _ _ hidx]
  exact List.getElem_mem hidx

theorem leafTrisInBox_congr {x y : List Tri} {m : Nat}
    (hxy : x.take m = y.take m) :
    ∀ {t : BVHTree} {a b : Nat}, Tiles t a b → b ≤ m →
    leafTrisInBox x t → leafTrisInBox y t := by
  intro t
  induction t with
  | leaf bmin bmax ts tc =>
    intro a b htl hbm hx
    rw [Tiles] at htl
    rw [leafTrisInBox] at hx ⊢
    intro i hi1 hi2
    rw [← getD_congr_take hxy (by omega : i < m)]
    exact hx i hi1 hi2
  | node bmin bmax l r ihl ihr =>
    intro a b htl hbm hx
    rw [Tiles] at htl
    obtain ⟨mm, hm1, hm2, htl1, htl2⟩ := htl
    rw [leafTrisInBox] at hx ⊢
    exact ⟨ihl htl1 (by omega) hx.1, ihr htl2 hbm hx.2⟩

theorem Tiles_owners {t : BVHTree} : ∀ {a b : Nat}, Tiles t a b →
    (∀ i, a ≤ i → i < b → owners t i = 1)
      ∧ (∀ i, i < a ∨ b ≤ i → owners t i = 0) := by
  induction t with
  | leaf bmin bmax ts tc =>
    intro a b htl
    rw [Tiles] at htl
    rw [show ts = a from htl.1] at *
    constructor
    · intro i h1 h2
      rw [owners, if_pos (by omega)]
    · intro i h
      rw [owners, if_neg (by omega)]
  | node bmin bmax l r ihl ihr =>
    intro a b htl
    rw [Tiles] at htl
    obtain ⟨m, hm1, hm2, htl1, htl2⟩ := htl
    constructor
    · intro i h1 h2
      rw [owners]
      by_cases him : i < m
      · rw [(ihl htl1).1 i h1 him, (ihr htl2).2 i (Or.inl him)]
      · rw [(ihl htl1).2 i (Or.inr (by omega)), (ihr htl2).1 i (by omega) h2]
    · intro i h
      rw [owners, (ihl htl1).2 i (by omega), (ihr htl2).2 i (by omega)]

theorem filter_not_length (p : Tri → Bool) (l : List Tri) :
    (l.filter p).length + (l.filter (fun t => !(p t))).length = l.length := by
  have h := (List.filter_append_perm p l).length_eq
  simpa using h

theorem partList_length {tris : List Tri} {s e : Nat} (hs : s ≤ e)
    (he : e ≤ tris.length) : (partList tris s e).length = tris.length := by
  rw [partList]
  simp only [List.length_append, List.length_take, List.length_drop]
  have h := filter_not_length (belowMid (slice tris s e) (e - s)) (slice tris s e)
  have hsl : (slice tris s e).length = e - s := slice_length hs he
  omega

theorem partList_take {tris : List Tri} {s e : Nat} (hs : s ≤ e)
    (he : e ≤ tris.length) : (partList tris s e).take s = tris.take s := by
  rw [partList, List.append_assoc, List.append_assoc]
  exact List.take_left' (by rw [List.length_take]; omega)

theorem partList_drop {tris : List Tri} {s e : Nat} (hs : s ≤ e)
    (he : e ≤ tris.length) : (partList tris s e).drop e = tris.drop e := by
  rw [partList]
  exact List.drop_left' (by
    simp only [List.length_append, List.length_take]
    have h := filter_not_length (belowMid (slice tris s e) (e - s)) (slice tris s e)
    have hsl : (slice tris s e).length = e - s := slice_length hs he
    omega)

theorem partList_slice {tris : List Tri} {s e : Nat} (hs : s ≤ e)
    (he : e ≤ tris.length) :
    slice (partList tris s e) s e
      = (slice tris s e).filter (belowMid (slice tris s e) (e - s))
        ++ (slice tris s e).filter (fun t => !(belowMid (slice tris s e) (e - s) t)) := by
  rw [slice, partList, List.append_assoc, List.append_assoc,
    List.drop_left' (show (List.take s tris).length = s by rw [List.length_take]; omega),
    ← List.append_assoc]
  exact List.take_left' (by
    rw [List.length_append]
    have h := filter_not_length (belowMid (slice tris s e) (e - s)) (slice tris s e)
    have hsl : (slice tris s e).length = e - s := slice_length hs he
    omega)

theorem partList_slice_perm {tris : List Tri} {s e : Nat} (hs : s ≤ e)
    (he : e ≤ tris.length) :
    (slice (partList tris s e) s e).Perm (slice tris s e) := by
  rw [partList_slice hs he]
  exact List.filter_append_perm _ _

theorem BuildNode_leaf_eq {tris : List Tri} {s e : Nat} (hc : e - s ≤ 4) :
    BuildNode tris s e
      = (tris, BVHTree.leaf (listBox (slice tris s e)).1 (listBox (slice tris s e)).2
          s (e - s)) := by
  rw [BuildNode]
  dsimp only
  rw [dif_pos hc]

theorem BuildNode_node_eq {tris : List Tri} {s e : Nat} (hc : ¬ e - s ≤ 4) :
    BuildNode tris s e
      = ((BuildNode (BuildNode (partList tris s e) s (splitIndex tris s e)).1
            (splitIndex tris s e) e).1,
         BVHTree.node (listBox (slice tris s e)).1 (listBox (slice tris s e)).2
           (BuildNode (partList tris s e) s (splitIndex tris s e)).2
           (BuildNode (BuildNode (partList tris s e) s (splitIndex tris s e)).1
             (splitIndex tris s e) e).2) := by
  rw [BuildNode]
  dsimp only
  rw [dif_neg hc]

/-- The full invariant of BuildNode, by strong induction on the range size:
the output list is a within-range permutation of the input (same length,
prefix and suffix untouched), every leaf holds 1–4 triangles, the leaf
ranges tile [s, e) exactly, every leaf's triangles lie in its box, every
node's box contains its children's boxes, and the root box is the range's
AABB. -/
theorem BuildNode_spec : ∀ (n : Nat) (tris : List Tri) (s e : Nat),
    e - s ≤ n → s < e → e ≤ tris.length →
    (BuildNode tris s e).1.length = tris.length
    ∧ (BuildNode tris s e).1.take s = tris.take s
    ∧ (BuildNode tris s e).1.drop e = tris.drop e
    ∧ (slice (BuildNode tris s e).1 s e).Perm (slice tris s e)
    ∧ leavesSmall (BuildNode tris s e).2
    ∧ Tiles (BuildNode tris s e).2 s e
    ∧ leafTrisInBox (BuildNode tris s e).1 (BuildNode tris s e).2
    ∧ childBoxesContained (BuildNode tris s e).2
    ∧ treeMin (BuildNode tris s e).2 = (listBox (slice tris s e)).1
    ∧ treeMax (BuildNode tris s e).2 = (listBox (slice tris s e)).2 := by
  intro n
  induction n with
  | zero => intro tris s e h1 h2 h3; omega
  | succ n ih =>
    intro tris s e h1 h2 h3
    by_cases hc : e - s ≤ 4
    · rw [BuildNode_leaf_eq hc]
      refine ⟨rfl, rfl, rfl, List.Perm.refl _, ⟨by omega, hc⟩, ⟨rfl, by omega⟩,
        ?_, trivial, rfl, rfl⟩
      rw [leafTrisInBox]
      intro i hi1 hi2
      have hi2' : i < e := by omega
      have hmem : tris.getD i defTri ∈ slice tris s e := getD_mem_slice hi1 hi2' h3
      have hb := listBox_bounds (slice tris s e) _ hmem
      obtain ⟨hva, hvb, hvc⟩ := tri_vertices_in_box (tris.getD i defTri)
      exact ⟨inBox_of_le hb.1 hb.2 hva, inBox_of_le hb.1 hb.2 hvb,
        inBox_of_le hb.1 hb.2 hvc⟩
    · have h5 : 5 ≤ e - s := by omega
      have hsb := splitIndex_bounds tris s e h5
      have hsle : s ≤ e := Nat.le_of_lt h2
      have hPlen : (partList tris s e).length = tris.length := partList_length hsle h3
      have hPtake : (partList tris s e).take s = tris.take s := partList_take hsle h3
      have hPdrop : (partList tris s e).drop e = tris.drop e := partList_drop hsle h3
      have hPperm : (slice (partList tris s e) s e).Perm (slice tris s e) :=
        partList_slice_perm hsle h3
      rw [BuildNode_node_eq hc]
      dsimp only
      set P := partList tris s e with hPdef
      set m := splitIndex tris s e with hmdef
      obtain ⟨hsm, hme⟩ := hsb
      have hmP : m ≤ P.length := by omega
      have ihL := ih P s m (by omega) hsm hmP
      set L := BuildNode P s m with hLdef
      obtain ⟨L1len, L1take, L1drop, L1perm, Lsmall, Ltiles, Lbox, Lcbc, Ltmin, Ltmax⟩ := ihL
      have heL : e ≤ L.1.length := by omega
      have ihR := ih L.1 m e (by omega) hme heL
      set R := BuildNode L.1 m e with hRdef
      obtain ⟨R1len, R1take, R1drop, R1perm, Rsmall, Rtiles, Rbox, Rcbc, Rtmin, Rtmax⟩ := ihR
      have eLR : slice L.1 m e = slice P m e := slice_congr_drop L1drop (le_refl m)
      refine ⟨by omega, ?_, ?_, ?_, ⟨Lsmall, Rsmall⟩,
        ⟨m, Nat.le_of_lt hsm, Nat.le_of_lt hme, Ltiles, Rtiles⟩,
        ⟨leafTrisInBox_congr R1take.symm Ltiles (le_refl m) Lbox, Rbox⟩, ?_, rfl, rfl⟩
      · have t1 : R.1.take s = (R.1.take m).take s := by
          rw [List.take_take, min_eq_left (Nat.le_of_lt hsm)]
        rw [t1, R1take, List.take_take, min_eq_left (Nat.le_of_lt hsm), L1take, hPtake]
      · have t1 : ∀ l : List Tri, l.drop e = (l.drop m).drop (e - m) := fun l => by
          rw [List.drop_drop]; congr 1; omega
        rw [R1drop, t1 L.1, L1drop, ← t1 P, hPdrop]
      · rw [slice_append R.1 s m e (Nat.le_of_lt hsm) (Nat.le_of_lt hme),
          slice_congr_take R1take (le_refl m)]
        refine ((List.Perm.append L1perm (eLR ▸ R1perm)).trans ?_).trans hPperm
        rw [← slice_append P s m e (Nat.le_of_lt hsm) (Nat.le_of_lt hme)]
      · have hsubL : ∀ t ∈ slice P s m, t ∈ slice tris s e := by
          intro t ht
          refine hPperm.mem_iff.mp ?_
          rw [slice_append P s m e (Nat.le_of_lt hsm) (Nat.le_of_lt hme)]
          exact List.mem_append_left _ ht
        have hsubR : ∀ t ∈ slice P m e, t ∈ slice tris s e := by
          intro t ht
          refine hPperm.mem_iff.mp ?_
          rw [slice_append P s m e (Nat.le_of_lt hsm) (Nat.le_of_lt hme)]
          exact List.mem_append_right _ ht
        have hneL : slice P s m ≠ [] := by
          have hl : (slice P s m).length = m - s := slice_length (Nat.le_of_lt hsm) hmP
          intro hnil
          rw [hnil] at hl
          simp only [List.length_nil] at hl
          omega
        have hneR : slice P m e ≠ [] := by
          have hl : (slice P m e).length = e - m :=
            slice_length (Nat.le_of_lt hme) (by omega)
          intro hnil
          rw [hnil] at hl
          simp only [List.length_nil] at hl
          omega
        have hmonoL := listBox_mono (slice tris s e) (slice P s m) hneL hsubL
        have hmonoR := listBox_mono (slice tris s e) (slice P m e) hneR hsubR
        refine ⟨?_, ?_, ?_, ?_, Lcbc, Rcbc⟩
        · rw [Ltmin]
          exact hmonoL.1
        · rw [Ltmax]
          exact hmonoL.2
        · rw [Rtmin, eLR]
          exact hmonoR.1
        · rw [Rtmax, eLR]
          exact hmonoR.2

/-- C5: BVH structural invariant. For every non-empty triangle list,
BVH::Build succeeds and produces a reordered copy of the triangles (same
length, a permutation of the input) together with a tree in which (a)
every leaf holds between 1 and 4 triangles, (b) the leaf ranges
[triStart, triStart + triCount) partition the triangle array — every
in-range index is owned by exactly one leaf and no leaf range reaches
outside the array, (c) every vertex of every triangle of a leaf's range
lies in that leaf's bounding box, and (d) every internal node's box
contains both children's boxes. -/
theorem C5_bvh_build_invariants (inTris : List Tri) (hne : inTris ≠ []) :
    ∃ pr : List Tri × BVHTree, BVH_Build inTris = some pr
      ∧ pr.1.length = inTris.length
      ∧ pr.1.Perm inTris
      ∧ leavesSmall pr.2
      ∧ (∀ i, i < inTris.length → owners pr.2 i = 1)
      ∧ (∀ i, inTris.length ≤ i → owners pr.2 i = 0)
      ∧ leafTrisInBox pr.1 pr.2
      ∧ childBoxesContained pr.2 := by
  have hemp : inTris.isEmpty = false := by
    cases inTris with
    | nil => exact absurd rfl hne
    | cons a l => rfl
  have hpos : 0 < inTris.length := List.length_pos.mpr hne
  obtain ⟨hlen, _htake, _hdrop, hperm, hsmall, htiles, hbox, hcbc, _, _⟩ :=
    BuildNode_spec inTris.length inTris 0 inTris.length (le_refl _) hpos (le_refl _)
  have hsliceAll : ∀ l : List Tri, slice l 0 l.length = l := fun l => by simp [slice]
  have hslice : slice inTris 0 inTris.length = inTris := hsliceAll inTris
  have hslice2 : slice (BuildNode inTris 0 inTris.length).1 0 inTris.length
      = (BuildNode inTris 0 inTris.length).1 := by
    have h := hsliceAll (BuildNode inTris 0 inTris.length).1
    rw [hlen] at h
    exact h
  rw [hslice2, hslice] at hperm
  refine ⟨BuildNode inTris 0 inTris.length, ?_, hlen, hperm, hsmall, ?_, ?_, hbox, hcbc⟩
  · rw [BVH_Build, hemp]
    simp
  · intro i hi
    exact (Tiles_owners htiles).1 i (Nat.zero_le i) hi
  · intro i hi
    exact (Tiles_owners htiles).2 i (Or.inr hi)

/-- Six unit triangles along the x axis, with their exact centroids. -/
def c5Tris : List Tri :=
  [⟨⟨0, 0, 0⟩, ⟨1, 0, 0⟩, ⟨0, 1, 0⟩, ⟨1/3, 1/3, 0⟩⟩,
   ⟨⟨1, 0, 0⟩, ⟨2, 0, 0⟩, ⟨1, 1, 0⟩, ⟨4/3, 1/3, 0⟩⟩,
   ⟨⟨2, 0, 0⟩, ⟨3, 0, 0⟩, ⟨2, 1, 0⟩, ⟨7/3, 1/3, 0⟩⟩,
   ⟨⟨3, 0, 0⟩, ⟨4, 0, 0⟩, ⟨3, 1, 0⟩, ⟨10/3, 1/3, 0⟩⟩,
   ⟨⟨4, 0, 0⟩, ⟨5, 0, 0⟩, ⟨4, 1, 0⟩, ⟨13/3, 1/3, 0⟩⟩,
   ⟨⟨5, 0, 0⟩, ⟨6, 0, 0⟩, ⟨5, 1, 0⟩, ⟨16/3, 1/3, 0⟩⟩]

/-- Witness: the C5 invariants at a concrete six-triangle input (large
enough that BuildNode actually splits). -/
theorem C5_bvh_build_invariants_witness :
    c5Tris ≠ []
      ∧ ∃ pr : List Tri × BVHTree, BVH_Build c5Tris = some pr
          ∧ pr.1.length = c5Tris.length
          ∧ pr.1.Perm c5Tris
          ∧ leavesSmall pr.2
          ∧ (∀ i, i < c5Tris.length → owners pr.2 i = 1)
          ∧ (∀ i, c5Tris.length ≤ i → owners pr.2 i = 0)
          ∧ leafTrisInBox pr.1 pr.2
          ∧ childBoxesContained pr.2 :=
  ⟨List.cons_ne_nil _ _, C5_bvh_build_invariants c5Tris (List.cons_ne_nil _ _)⟩

-- ── Collision queries ────────────────────────────────────────────────────────

/-- Min corner of the sphere's swept AABB, inflated by the radius. -/
def sweptMin (start endP : V3) (radius : ℚ) : V3 :=
  ⟨min start.x endP.x - radius, min start.y endP.y - radius, min start.z endP.z - radius⟩

/-- Max corner of the sphere's swept AABB, inflated by the radius. -/
def sweptMax (start endP : V3) (radius : ℚ) : V3 :=
  ⟨max start.x endP.x + radius, max start.y endP.y + radius, max start.z endP.z + radius⟩

/-- AabbOverlap. -/
def AabbOverlap (bmin bmax qmin qmax : V3) : Bool :=
  decide (bmin.x ≤ qmax.x ∧ qmin.x ≤ bmax.x ∧ bmin.y ≤ qmax.y ∧ qmin.y ≤ bmax.y ∧
          bmin.z ≤ qmax.z ∧ qmin.z ≤ bmax.z)

/-- The per-triangle update of the running (bestT, bestN) in the sweep
traversal leaf loop. -/
def sweepStep (start endP : V3) (radius : ℚ) (b : ℚ × V3) (tri : Tri) : ℚ × V3 :=
  let r := SweepSphereTriangle start endP radius tri.a tri.b tri.c
  if r.1 < b.1 then r else b

/-- SweepNodeBVH: cull by inflated-AABB overlap, test every leaf triangle,
recurse into both children of internal nodes (left first). -/
def SweepNodeBVH (tris : List Tri) (tree : BVHTree) (start endP : V3) (radius : ℚ)
    (best : ℚ × V3) : ℚ × V3 :=
  match tree with
  | .leaf bmin bmax ts tc =>
    if AabbOverlap bmin bmax (sweptMin start endP radius) (sweptMax start endP radius) then
      (slice tris ts (ts + tc)).foldl (sweepStep start endP radius) best
    else best
  | .node bmin bmax l r =>
    if AabbOverlap bmin bmax (sweptMin start endP radius) (sweptMax start endP radius) then
      SweepNodeBVH tris r start endP radius (SweepNodeBVH tris l start endP radius best)
    else best

/-- The per-triangle accumulation of (push vector, didPush) in the
penetration traversal leaf loop. -/
def penStep (center : V3) (radius : ℚ) (acc : V3 × Bool) (tri : Tri) : V3 × Bool :=
  let closest := ClosestPtTriangle center tri.a tri.b tri.c
  let diff := v3sub center closest
  let dist2 := v3dot diff diff
  if dist2 < radius * radius then
    let dist := ratSqrt dist2
    let n := if EPS_T < dist then v3scale diff (1 / dist)
             else v3norm (v3cross (v3sub tri.b tri.a) (v3sub tri.c tri.a))
    (v3add acc.1 (v3scale n (radius - dist)), true)
  else acc

/-- The quick AABB cull of PenetrationNodeBVH (box expanded by radius). -/
def penCulled (bmin bmax center : V3) (radius : ℚ) : Bool :=
  decide (center.x + radius < bmin.x ∨ bmax.x < center.x - radius ∨
          center.y + radius < bmin.y ∨ bmax.y < center.y - radius ∨
          center.z + radius < bmin.z ∨ bmax.z < center.z - radius)

/-- PenetrationNodeBVH. -/
def PenetrationNodeBVH (tris : List Tri) (tree : BVHTree) (center : V3) (radius : ℚ)
    (acc : V3 × Bool) : V3 × Bool :=
  match tree with
  | .leaf bmin bmax ts tc =>
    if penCulled bmin bmax center radius then acc
    else (slice tris ts (ts + tc)).foldl (penStep center radius) acc
  | .node bmin bmax l r =>
    if penCulled bmin bmax center radius then acc
    else PenetrationNodeBVH tris r center radius (PenetrationNodeBVH tris l center radius acc)

-- ── Static mesh registry ─────────────────────────────────────────────────────

/-- struct StaticMeshEntry: an opaque integer handle plus its built BVH
(reordered triangle list and tree). Registration rejects empty triangle
lists, so every stored tree was built from a non-empty list. -/
structure StaticMeshEntry where
  handle : Int
  tris : List Tri
  tree : BVHTree
deriving DecidableEq

/-- The global registry (g_staticMeshes, g_nextHandle). -/
structure PhysState where
  staticMeshes : List StaticMeshEntry
  nextHandle : Int
deriving DecidableEq

def physInit : PhysState := ⟨[], 1⟩

/-- RegisterStaticMeshFromModel, taking the triangle list extracted from
the model: an empty extraction returns the sentinel -1 and registers
nothing; otherwise the BVH is built, stored under `g_nextHandle++`, and the
handle returned. -/
def RegisterStaticMeshFromModel (st : PhysState) (tris : List Tri) : PhysState × Int :=
  match BVH_Build tris with
  | none => (st, -1)
  | some res =>
    (⟨st.staticMeshes ++ [⟨st.nextHandle, res.1, res.2⟩], st.nextHandle + 1⟩, st.nextHandle)

/-- UnregisterStaticMesh: erase the first entry with the handle; absent
handles are a no-op. -/
def UnregisterStaticMesh (st : PhysState) (handle : Int) : PhysState :=
  ⟨st.staticMeshes.eraseP (fun en => en.handle == handle), st.nextHandle⟩

/-- The handle lookup performed under the registry mutex by both queries. -/
def findMesh (st : PhysState) (handle : Int) : Option StaticMeshEntry :=
  st.staticMeshes.find? (fun en => en.handle == handle)

/-- SweepSphereAgainstStatic. The C++ out-parameters hitPos/hitNormal/t are
passed in and returned, so a `false` result returning them unchanged is the
equality with the inputs. -/
def SweepSphereAgainstStatic (st : PhysState) (handle : Int) (start endP : V3)
    (radius : ℚ) (hitPos hitNormal : V3) (t : ℚ) : Bool × V3 × V3 × ℚ :=
  match findMesh st handle with
  | none => (false, hitPos, hitNormal, t)
  | some entry =>
    let best := SweepNodeBVH entry.tris entry.tree start endP radius (FLT_MAX, ⟨0, 1, 0⟩)
    if 1 + EPS_T < best.1 then (false, hitPos, hitNormal, t)
    else (true, v3add start (v3scale (v3sub endP start) best.1), best.2, best.1)

/-- ResolveSphereAgainstStatic: accumulate push-out vectors over all
overlapping triangles and apply the sum to the center once. -/
def ResolveSphereAgainstStatic (st : PhysState) (handle : Int) (center : V3)
    (radius : ℚ) : Bool × V3 :=
  match findMesh st handle with
  | none => (false, center)
  | some entry =>
    let res := PenetrationNodeBVH entry.tris entry.tree center radius (⟨0, 0, 0⟩, false)
    if res.2 then (true, v3add center res.1) else (false, center)

-- ── Registry lemmas ──────────────────────────────────────────────────────────

theorem findMesh_eq_none (st : PhysState) (h : Int)
    (hno : ∀ en ∈ st.staticMeshes, en.handle ≠ h) : findMesh st h = none := by
  rw [findMesh, List.find?_eq_none]
  intro en hen
  simpa using hno en hen

theorem handle_gone_after_erase (l : List StaticMeshEntry) (h : Int)
    (hnd : (l.map (fun en => en.handle)).Nodup) :
    ∀ en ∈ l.eraseP (fun en => en.handle == h), en.handle ≠ h := by
  induction l with
  | nil => intro en hmem; simp at hmem
  | cons a t ih =>
    simp only [List.map_cons, List.nodup_cons] at hnd
    by_cases ha : a.handle = h
    · rw [List.eraseP_cons_of_pos (by simpa using ha)]
      intro en hmem heq
      exact hnd.1 (List.mem_map.mpr ⟨en, hmem, by rw [heq, ha]⟩)
    · rw [List.eraseP_cons_of_neg (by simpa using ha)]
      intro en hmem
      rcases List.mem_cons.mp hmem with rfl | hmem2
      · exact ha
      · exact ih hnd.2 en hmem2

/-- C8: mesh handle lifecycle safety. (i) Registering a model whose
extracted triangle list is empty returns the sentinel -1 (non-positive) and
registers nothing. (ii) For any handle held by no registry entry (never
registered, or already erased), SweepSphereAgainstStatic and
ResolveSphereAgainstStatic return false with all out-parameters unchanged,
and UnregisterStaticMesh is a no-op (so double-unregister is safe).
(iii) When registered handles are distinct (as produced by the
incrementing handle counter), unregistering a handle removes it from the
registry, so subsequent queries against the stale handle fall under (ii). -/
theorem C8_handle_lifecycle_safety :
    (∀ st : PhysState, RegisterStaticMeshFromModel st [] = (st, -1) ∧ (-1 : Int) ≤ 0)
    ∧ (∀ (st : PhysState) (h : Int), (∀ en ∈ st.staticMeshes, en.handle ≠ h) →
      (∀ (start endP hitPos hitNormal : V3) (radius t : ℚ),
        SweepSphereAgainstStatic st h start endP radius hitPos hitNormal t
          = (false, hitPos, hitNormal, t))
      ∧ (∀ (center : V3) (radius : ℚ),
        ResolveSphereAgainstStatic st h center radius = (false, center))
      ∧ UnregisterStaticMesh st h = st)
    ∧ (∀ (st : PhysState) (h : Int),
      (st.staticMeshes.map (fun en => en.handle)).Nodup →
      ∀ en ∈ (UnregisterStaticMesh st h).staticMeshes, en.handle ≠ h) := by
  refine ⟨?_, ?_, ?_⟩
  · intro st
    exact ⟨rfl, by norm_num⟩
  · intro st h hno
    have hfm : findMesh st h = none := findMesh_eq_none st h hno
    refine ⟨?_, ?_, ?_⟩
    · intro start endP hitPos hitNormal radius t
      simp [SweepSphereAgainstStatic, hfm]
    · intro center radius
      simp [ResolveSphereAgainstStatic, hfm]
    · have : st.staticMeshes.eraseP (fun en => en.handle == h) = st.staticMeshes :=
        List.eraseP_of_forall_not (fun en hen => by simpa using hno en hen)
      simp [UnregisterStaticMesh, this]
  · intro st h hnd en hen
    exact handle_gone_after_erase st.staticMeshes h hnd en hen

/-- C8 witness: a one-triangle registry under handle 1; queries and
unregister on the absent handle 2 are safe no-ops, and after unregistering
handle 1 it is gone. -/
theorem C8_handle_lifecycle_safety_witness :
    RegisterStaticMeshFromModel physInit [] = (physInit, -1)
    ∧ SweepSphereAgainstStatic
        (RegisterStaticMeshFromModel physInit [⟨⟨0,0,0⟩, ⟨1,0,0⟩, ⟨0,1,0⟩, ⟨0,0,0⟩⟩]).1 2
        ⟨0,0,0⟩ ⟨1,1,1⟩ 1 ⟨7,7,7⟩ ⟨8,8,8⟩ 9 = (false, ⟨7,7,7⟩, ⟨8,8,8⟩, 9)
    ∧ ResolveSphereAgainstStatic
        (RegisterStaticMeshFromModel physInit [⟨⟨0,0,0⟩, ⟨1,0,0⟩, ⟨0,1,0⟩, ⟨0,0,0⟩⟩]).1 2
        ⟨5,5,5⟩ 1 = (false, ⟨5,5,5⟩)
    ∧ (∀ en ∈ (UnregisterStaticMesh
        (RegisterStaticMeshFromModel physInit [⟨⟨0,0,0⟩, ⟨1,0,0⟩, ⟨0,1,0⟩, ⟨0,0,0⟩⟩]).1
        1).staticMeshes, en.handle ≠ 1) :=
  ⟨(C8_handle_lifecycle_safety.1 physInit).1,
   (C8_handle_lifecycle_safety.2.1
      (RegisterStaticMeshFromModel physInit [⟨⟨0,0,0⟩, ⟨1,0,0⟩, ⟨0,1,0⟩, ⟨0,0,0⟩⟩]).1 2
      (by decide)).1 ⟨0,0,0⟩ ⟨1,1,1⟩ ⟨7,7,7⟩ ⟨8,8,8⟩ 1 9,
   (C8_handle_lifecycle_safety.2.1
      (RegisterStaticMeshFromModel physInit [⟨⟨0,0,0⟩, ⟨1,0,0⟩, ⟨0,1,0⟩, ⟨0,0,0⟩⟩]).1 2
      (by decide)).2.1 ⟨5,5,5⟩ 1,
   C8_handle_lifecycle_safety.2.2
      (RegisterStaticMeshFromModel physInit [⟨⟨0,0,0⟩, ⟨1,0,0⟩, ⟨0,1,0⟩, ⟨0,0,0⟩⟩]).1 1
      (by decide)⟩

-- ── Sweep traversal characterization ─────────────────────────────────────────

/-- The (t, normal) sub-test results the sweep traversal folds over: one
SweepSphereTriangle result per triangle of every leaf that passes the
inflated-AABB cull, in traversal order. -/
def sweepCands (tris : List Tri) (tree : BVHTree) (start endP : V3) (radius : ℚ) :
    List (ℚ × V3) :=
  match tree with
  | .leaf bmin bmax ts tc =>
    if AabbOverlap bmin bmax (sweptMin start endP radius) (sweptMax start endP radius) then
      (slice tris ts (ts + tc)).map
        (fun tri => SweepSphereTriangle start endP radius tri.a tri.b tri.c)
    else []
  | .node bmin bmax l r =>
    if AabbOverlap bmin bmax (sweptMin start endP radius) (sweptMax start endP radius) then
      sweepCands tris l start endP radius ++ sweepCands tris r start endP radius
    else []

/-- The keep-the-earlier-t update the traversal applies per candidate. -/
def minStep (b c : ℚ × V3) : ℚ × V3 := if c.1 < b.1 then c else b

theorem SweepNodeBVH_eq_foldl (tris : List Tri) (tree : BVHTree) (start endP : V3)
    (radius : ℚ) (best : ℚ × V3) :
    SweepNodeBVH tris tree start endP radius best
      = (sweepCands tris tree start endP radius).foldl minStep best := by
  induction tree generalizing best with
  | leaf bmin bmax ts tc =>
    rw [SweepNodeBVH, sweepCands]
    split
    · rw [List.foldl_map]
      rfl
    · rfl
  | node bmin bmax l r ihl ihr =>
    rw [SweepNodeBVH, sweepCands]
    split
    · rw [List.foldl_append, ihl, ihr]
    · rfl

theorem foldl_minStep_le_init (l : List (ℚ × V3)) (b : ℚ × V3) :
    (l.foldl minStep b).1 ≤ b.1 := by
  induction l generalizing b with
  | nil => exact le_refl _
  | cons c t ih =>
    rw [List.foldl_cons]
    refine le_trans (ih (minStep b c)) ?_
    rw [minStep]
    split
    · exact le_of_lt (by assumption)
    · exact le_refl _

theorem foldl_minStep_le_mem (l : List (ℚ × V3)) (b : ℚ × V3) (c : ℚ × V3)
    (hc : c ∈ l) : (l.foldl minStep b).1 ≤ c.1 := by
  induction l generalizing b with
  | nil => simp at hc
  | cons a t ih =>
    rw [List.foldl_cons]
    rcases List.mem_cons.mp hc with rfl | hc2
    · refine le_trans (foldl_minStep_le_init t (minStep b c)) ?_
      rw [minStep]
      split
      · exact le_refl _
      · exact le_of_not_lt (by assumption)
    · exact ih (minStep b a) hc2

theorem foldl_minStep_eq_or_mem (l : List (ℚ × V3)) (b : ℚ × V3) :
    l.foldl minStep b = b ∨ l.foldl minStep b ∈ l := by
  induction l generalizing b with
  | nil => exact Or.inl rfl
  | cons a t ih =>
    rw [List.foldl_cons]
    rcases ih (minStep b a) with h | h
    · rw [h, minStep]
      split
      · exact Or.inr (List.mem_cons_self a t)
      · exact Or.inl rfl
    · exact Or.inr (List.mem_cons_of_mem a h)

-- ── Nonnegativity of sweep candidates ────────────────────────────────────────

theorem FLT_MAX_nonneg : (0 : ℚ) ≤ FLT_MAX := by norm_num [FLT_MAX]

theorem RaySphere_nonneg (o d c : V3) (r tMin tMax : ℚ) (h : 0 ≤ tMin) :
    0 ≤ RaySphere o d c r tMin tMax := by
  rw [RaySphere]
  dsimp only
  split_ifs with h1 h2 h3
  · exact FLT_MAX_nonneg
  · exact le_trans h h2.1
  · exact le_trans h h3.1
  · exact FLT_MAX_nonneg

theorem RayCylinder_nonneg (ro rd a b : V3) (r tMin tMax : ℚ) (h : 0 ≤ tMin) :
    0 ≤ RayCylinder ro rd a b r tMin tMax := by
  rw [RayCylinder]
  dsimp only
  split_ifs <;> try exact FLT_MAX_nonneg
  all_goals dsimp only
  all_goals (split_ifs <;> try exact FLT_MAX_nonneg)
  all_goals
    rename_i hsel _
  all_goals simp only [not_or, not_lt] at hsel
  all_goals linarith [hsel.1]

theorem sweepFace_nonneg (start d : V3) (radius : ℚ) (ta tb tc triNorm : V3)
    (sgn : ℚ) (best : ℚ × V3) (h : 0 ≤ best.1) :
    0 ≤ (sweepFace start d radius ta tb tc triNorm sgn best).1 := by
  rw [sweepFace]
  dsimp only
  split_ifs with h1 h2
  · exact h1.1
  · exact h
  · exact h

theorem sweepEdge_nonneg (start d : V3) (radius : ℚ) (e0 e1 : V3)
    (best : ℚ × V3) (h : 0 ≤ best.1) :
    0 ≤ (sweepEdge start d radius e0 e1 best).1 := by
  rw [sweepEdge]
  dsimp only
  split_ifs <;>
    first
    | exact h
    | exact RayCylinder_nonneg start d e0 e1 radius 0 best.1 (le_refl 0)

theorem sweepVert_nonneg (start d : V3) (radius : ℚ) (v : V3)
    (best : ℚ × V3) (h : 0 ≤ best.1) :
    0 ≤ (sweepVert start d radius v best).1 := by
  rw [sweepVert]
  dsimp only
  split_ifs <;>
    first
    | exact h
    | exact RaySphere_nonneg start d v radius 0 best.1 (le_refl 0)

theorem SweepSphereTriangle_nonneg (start endP : V3) (radius : ℚ) (ta tb tc : V3) :
    0 ≤ (SweepSphereTriangle start endP radius ta tb tc).1 := by
  rw [SweepSphereTriangle]
  dsimp only
  split_ifs with h1 h2 h3
  all_goals
    first
    | exact FLT_MAX_nonneg
    | (apply sweepVert_nonneg
       apply sweepVert_nonneg
       apply sweepVert_nonneg
       apply sweepEdge_nonneg
       apply sweepEdge_nonneg
       apply sweepEdge_nonneg
       first
       | (apply sweepFace_nonneg
          apply sweepFace_nonneg
          exact FLT_MAX_nonneg)
       | exact FLT_MAX_nonneg)

/-- A degenerate sweep (start = end) hits nothing: the segment-length guard
rejects every triangle. -/
theorem SweepSphereTriangle_degenerate (P : V3) (radius : ℚ) (ta tb tc : V3) :
    SweepSphereTriangle P P radius ta tb tc = (FLT_MAX, ⟨0, 1, 0⟩) := by
  rw [SweepSphereTriangle]
  have hd : v3sub P P = ⟨0, 0, 0⟩ := by
    simp [v3sub]
  rw [hd]
  have hlen : v3len ⟨0, 0, 0⟩ = 0 := by
    simp [v3len, v3dot, ratSqrt]
  rw [if_pos]
  rw [hlen]
  norm_num [EPS_SEG]

theorem SweepNodeBVH_degenerate (tris : List Tri) (tree : BVHTree) (P : V3)
    (radius : ℚ) (best : ℚ × V3) (hb : best.1 ≤ FLT_MAX) :
    SweepNodeBVH tris tree P P radius best = best := by
  rw [SweepNodeBVH_eq_foldl]
  induction tree with
  | leaf bmin bmax ts tc =>
    rw [sweepCands]
    split
    · induction slice tris ts (ts + tc) with
      | nil => rfl
      | cons tri rest ih =>
        rw [List.map_cons, List.foldl_cons, SweepSphereTriangle_degenerate, minStep]
        rw [if_neg (by exact not_lt_of_le hb)]
        exact ih
    · rfl
  | node bmin bmax l r ihl ihr =>
    rw [sweepCands]
    split
    · rw [List.foldl_append, ihl, ihr]
    · rfl

theorem mem_sweepCands (tris : List Tri) (tree : BVHTree) (start endP : V3)
    (radius : ℚ) (c : ℚ × V3)
    (hc : c ∈ sweepCands tris tree start endP radius) :
    ∃ tri : Tri, c = SweepSphereTriangle start endP radius tri.a tri.b tri.c := by
  induction tree with
  | leaf bmin bmax ts tc =>
    rw [sweepCands] at hc
    split at hc
    · rcases List.mem_map.mp hc with ⟨tri, _, rfl⟩
      exact ⟨tri, rfl⟩
    · simp at hc
  | node bmin bmax l r ihl ihr =>
    rw [sweepCands] at hc
    split at hc
    · rcases List.mem_append.mp hc with h | h
      · exact ihl h
      · exact ihr h
    · simp at hc

theorem one_plus_eps_lt_FLT_MAX : 1 + EPS_T < FLT_MAX := by
  norm_num [EPS_T, FLT_MAX]

/-- C4 amended: the sweep query result contract. Either the query returns
false and the out-parameters hitPos, hitNormal, t keep exactly their values
from before the call, or it returns true and then t is the earliest impact
parameter over all sub-test candidates the traversal produced, with
0 ≤ t ≤ 1 + 1e-6 (the code accepts hits up to the explicit tolerance 1e-6
beyond the end of the segment), hitPos = start + t*(end-start), and
(t, hitNormal) is exactly the result pair of the sub-test of one of the
tested triangles — the normal comes from the sub-test that produced the
earliest t. -/
theorem C4_amended_sweep_result_contract :
    ∀ (st : PhysState) (handle : Int) (start endP : V3) (radius : ℚ)
      (p0 n0 : V3) (t0 : ℚ),
    SweepSphereAgainstStatic st handle start endP radius p0 n0 t0 = (false, p0, n0, t0)
    ∨ (∃ entry, findMesh st handle = some entry
        ∧ (SweepSphereAgainstStatic st handle start endP radius p0 n0 t0).1 = true
        ∧ 0 ≤ (SweepSphereAgainstStatic st handle start endP radius p0 n0 t0).2.2.2
        ∧ (SweepSphereAgainstStatic st handle start endP radius p0 n0 t0).2.2.2 ≤ 1 + EPS_T
        ∧ (SweepSphereAgainstStatic st handle start endP radius p0 n0 t0).2.1
            = v3add start (v3scale (v3sub endP start)
                (SweepSphereAgainstStatic st handle start endP radius p0 n0 t0).2.2.2)
        ∧ ((SweepSphereAgainstStatic st handle start endP radius p0 n0 t0).2.2.2,
           (SweepSphereAgainstStatic st handle start endP radius p0 n0 t0).2.2.1)
            ∈ sweepCands entry.tris entry.tree start endP radius
        ∧ (∀ c ∈ sweepCands entry.tris entry.tree start endP radius,
            (SweepSphereAgainstStatic st handle start endP radius p0 n0 t0).2.2.2 ≤ c.1)) := by
  intro st handle start endP radius p0 n0 t0
  unfold SweepSphereAgainstStatic
  cases hfm : findMesh st handle with
  | none => exact Or.inl rfl
  | some entry =>
    dsimp only
    rw [SweepNodeBVH_eq_foldl]
    by_cases hmiss :
        1 + EPS_T < ((sweepCands entry.tris entry.tree start endP radius).foldl minStep
          (FLT_MAX, ⟨0, 1, 0⟩)).1
    · rw [if_pos hmiss]
      exact Or.inl rfl
    · rw [if_neg hmiss]
      refine Or.inr ⟨entry, rfl, rfl, ?_, le_of_not_lt hmiss, rfl, ?_, ?_⟩
      · rcases foldl_minStep_eq_or_mem
            (sweepCands entry.tris entry.tree start endP radius) (FLT_MAX, ⟨0, 1, 0⟩)
            with hbase | hmem
        · rw [hbase]
          exact FLT_MAX_nonneg
        · rcases mem_sweepCands entry.tris entry.tree start endP radius _ hmem
              with ⟨tri, htri⟩
          rw [htri]
          exact SweepSphereTriangle_nonneg start endP radius tri.a tri.b tri.c
      · rcases foldl_minStep_eq_or_mem
            (sweepCands entry.tris entry.tree start endP radius) (FLT_MAX, ⟨0, 1, 0⟩)
            with hbase | hmem
        · exfalso
          apply hmiss
          rw [hbase]
          exact one_plus_eps_lt_FLT_MAX
        · exact hmem
      · intro c hc
        exact foldl_minStep_le_mem _ _ c hc

-- ── Concrete evaluations for the C4 and C6 counterexamples ──────────────────

/-- The wall triangle of the C6 counterexample: a large triangle in the
plane x = 2. -/
def wallTri : Tri := ⟨⟨2, -10, -10⟩, ⟨2, -10, 10⟩, ⟨2, 30, 0⟩, ⟨2, 10/3, 0⟩⟩

def wallState : PhysState := (RegisterStaticMeshFromModel physInit [wallTri]).1

theorem wall_triNorm_eval :
    v3norm (v3cross (v3sub ⟨2, -10, 10⟩ ⟨2, -10, -10⟩) (v3sub ⟨2, 30, 0⟩ ⟨2, -10, -10⟩))
      = (⟨-1, 0, 0⟩ : V3) := by
  norm_num [v3norm, v3cross, v3sub, v3len, v3dot, ratSqrt, Rat.num_ofNat, Rat.den_ofNat,
    v3scale, show Int.toNat 640000 = 640000 from rfl,
    show isqrt 640000 = 800 from by decide, show isqrt 1 = 1 from by decide]

theorem wall_face_neg_eval :
    sweepFace ⟨0, 1, 0⟩ ⟨5, 0, 0⟩ (1/2) ⟨2, -10, -10⟩ ⟨2, -10, 10⟩ ⟨2, 30, 0⟩ ⟨-1, 0, 0⟩ (-1)
      (FLT_MAX, ⟨-1, 0, 0⟩) = (1/2, ⟨1, 0, 0⟩) := by
  norm_num [sweepFace, ClosestPtTriangle, v3add, v3sub, v3scale, v3dot, v3len, ratSqrt,
    FLT_MAX, EPS_FOOT]

theorem wall_face_pos_eval :
    sweepFace ⟨0, 1, 0⟩ ⟨5, 0, 0⟩ (1/2) ⟨2, -10, -10⟩ ⟨2, -10, 10⟩ ⟨2, 30, 0⟩ ⟨-1, 0, 0⟩ 1
      (1/2, ⟨1, 0, 0⟩) = (3/10, ⟨-1, 0, 0⟩) := by
  norm_num [sweepFace, ClosestPtTriangle, v3add, v3sub, v3scale, v3dot, v3len, ratSqrt,
    FLT_MAX, EPS_FOOT]

theorem wall_edge1_eval :
    sweepEdge ⟨0, 1, 0⟩ ⟨5, 0, 0⟩ (1/2) ⟨2, -10, -10⟩ ⟨2, -10, 10⟩ (3/10, ⟨-1, 0, 0⟩)
      = (3/10, ⟨-1, 0, 0⟩) := by
  norm_num [sweepEdge, RayCylinder, v3add, v3sub, v3scale, v3dot, v3len, ratSqrt,
    EPS_SEG, EPS_T, FLT_MAX]

theorem wall_edge2_eval :
    sweepEdge ⟨0, 1, 0⟩ ⟨5, 0, 0⟩ (1/2) ⟨2, -10, 10⟩ ⟨2, 30, 0⟩ (3/10, ⟨-1, 0, 0⟩)
      = (3/10, ⟨-1, 0, 0⟩) := by
  norm_num [sweepEdge, RayCylinder, v3add, v3sub, v3scale, v3dot, v3len, ratSqrt,
    EPS_SEG, EPS_T, FLT_MAX]

theorem wall_edge3_eval :
    sweepEdge ⟨0, 1, 0⟩ ⟨5, 0, 0⟩ (1/2) ⟨2, 30, 0⟩ ⟨2, -10, -10⟩ (3/10, ⟨-1, 0, 0⟩)
      = (3/10, ⟨-1, 0, 0⟩) := by
  norm_num [sweepEdge, RayCylinder, v3add, v3sub, v3scale, v3dot, v3len, ratSqrt,
    EPS_SEG, EPS_T, FLT_MAX]

theorem wall_vert1_eval :
    sweepVert ⟨0, 1, 0⟩ ⟨5, 0, 0⟩ (1/2) ⟨2, -10, -10⟩ (3/10, ⟨-1, 0, 0⟩)
      = (3/10, ⟨-1, 0, 0⟩) := by
  norm_num [sweepVert, RaySphere, v3add, v3sub, v3scale, v3dot, v3len, ratSqrt,
    EPS_T, FLT_MAX]

theorem wall_vert2_eval :
    sweepVert ⟨0, 1, 0⟩ ⟨5, 0, 0⟩ (1/2) ⟨2, -10, 10⟩ (3/10, ⟨-1, 0, 0⟩)
      = (3/10, ⟨-1, 0, 0⟩) := by
  norm_num [sweepVert, RaySphere, v3add, v3sub, v3scale, v3dot, v3len, ratSqrt,
    EPS_T, FLT_MAX]

theorem wall_vert3_eval :
    sweepVert ⟨0, 1, 0⟩ ⟨5, 0, 0⟩ (1/2) ⟨2, 30, 0⟩ (3/10, ⟨-1, 0, 0⟩)
      = (3/10, ⟨-1, 0, 0⟩) := by
  norm_num [sweepVert, RaySphere, v3add, v3sub, v3scale, v3dot, v3len, ratSqrt,
    EPS_T, FLT_MAX]

theorem wall_sweepTri_eval :
    SweepSphereTriangle ⟨0, 1, 0⟩ ⟨5, 1, 0⟩ (1/2) ⟨2, -10, -10⟩ ⟨2, -10, 10⟩ ⟨2, 30, 0⟩
      = (3/10, ⟨-1, 0, 0⟩) := by
  have hd : v3sub (⟨5, 1, 0⟩ : V3) ⟨0, 1, 0⟩ = ⟨5, 0, 0⟩ := by norm_num [v3sub]
  have hlen : v3len (⟨5, 0, 0⟩ : V3) = 5 := by
    norm_num [v3len, v3dot, ratSqrt, Rat.num_ofNat, Rat.den_ofNat,
      show Int.toNat 25 = 25 from rfl,
      show isqrt 25 = 5 from by decide, show isqrt 1 = 1 from by decide]
  simp only [SweepSphereTriangle, hd, hlen, wall_triNorm_eval]
  norm_num [EPS_SEG, EPS_PLANE, EPS_T, v3dot, wall_face_neg_eval, wall_face_pos_eval,
    wall_edge1_eval, wall_edge2_eval, wall_edge3_eval,
    wall_vert1_eval, wall_vert2_eval, wall_vert3_eval]

theorem wallState_eq :
    wallState = ⟨[⟨1, [wallTri], BVHTree.leaf ⟨2, -10, -10⟩ ⟨2, 30, 10⟩ 0 1⟩], 2⟩ := by
  have hb : BuildNode [wallTri] 0 1
      = ([wallTri], BVHTree.leaf ⟨2, -10, -10⟩ ⟨2, 30, 10⟩ 0 1) := by
    rw [BuildNode]
    norm_num [slice, listBox, triMin, triMax, wallTri, min_def, max_def]
  simp only [wallState, RegisterStaticMeshFromModel, BVH_Build, List.isEmpty_cons,
    Bool.false_eq_true, if_false, List.length_cons, List.length_nil, hb, physInit,
    List.nil_append]
  norm_num

theorem wall_findMesh_eval :
    findMesh ⟨[⟨1, [wallTri], BVHTree.leaf ⟨2, -10, -10⟩ ⟨2, 30, 10⟩ 0 1⟩], 2⟩ 1
      = some ⟨1, [wallTri], BVHTree.leaf ⟨2, -10, -10⟩ ⟨2, 30, 10⟩ 0 1⟩ := by
  rw [findMesh]
  exact List.find?_cons_of_pos _ (by norm_num)

theorem wall_resolve_eval :
    ResolveSphereAgainstStatic wallState 1 ⟨5, 1, 0⟩ (1/2) = (false, ⟨5, 1, 0⟩) := by
  rw [wallState_eq]
  simp only [ResolveSphereAgainstStatic, wall_findMesh_eval]
  simp only [PenetrationNodeBVH]
  rw [if_pos (show penCulled ⟨2, -10, -10⟩ ⟨2, 30, 10⟩ ⟨5, 1, 0⟩ (1/2) = true by
    norm_num [penCulled])]
  norm_num

theorem wall_sweep_eval :
    SweepSphereAgainstStatic wallState 1 ⟨0, 1, 0⟩ ⟨5, 1, 0⟩ (1/2) ⟨0, 0, 0⟩ ⟨0, 0, 0⟩ 0
      = (true, ⟨3/2, 1, 0⟩, ⟨-1, 0, 0⟩, 3/10) := by
  rw [wallState_eq]
  simp only [SweepSphereAgainstStatic, wall_findMesh_eval, SweepNodeBVH]
  rw [if_pos (by norm_num [AabbOverlap, sweptMin, sweptMax, min_def, max_def] :
    AabbOverlap ⟨2, -10, -10⟩ ⟨2, 30, 10⟩ (sweptMin ⟨0, 1, 0⟩ ⟨5, 1, 0⟩ (1/2))
      (sweptMax ⟨0, 1, 0⟩ ⟨5, 1, 0⟩ (1/2)) = true)]
  simp only [slice, List.drop_zero, List.take_succ_cons, List.take_zero,
    List.foldl_cons, List.foldl_nil, sweepStep, wallTri, wall_sweepTri_eval]
  norm_num [EPS_T, FLT_MAX, v3add, v3sub, v3scale]

/-- The triangle of the C4 counterexample: three collinear vertices (a
degenerate triangle, which the source registers without any degeneracy
check) along the x axis in the plane y = 2/5, with the nearest vertex at
x = 1.3000005. The face test is skipped (zero normal), the three edge
capsules are rejected as parallel to the ray, and the vertex sphere of the
near vertex is first touched at parameter t = 1.0000005 — inside the
code's 1e-6 acceptance tolerance but beyond the segment end. -/
def c4tri : Tri :=
  ⟨⟨2600001/2000000, 2/5, 0⟩, ⟨6600001/2000000, 2/5, 0⟩, ⟨4600001/2000000, 2/5, 0⟩,
   ⟨4600001/2000000, 2/5, 0⟩⟩

def c4State : PhysState := (RegisterStaticMeshFromModel physInit [c4tri]).1


theorem c4_triNorm_eval :
    v3norm (v3cross (v3sub ⟨6600001/2000000, 2/5, 0⟩ ⟨2600001/2000000, 2/5, 0⟩)
      (v3sub ⟨4600001/2000000, 2/5, 0⟩ ⟨2600001/2000000, 2/5, 0⟩)) = (⟨0, 0, 0⟩ : V3) := by
  norm_num [v3norm, v3cross, v3sub, v3len, v3dot, ratSqrt, v3scale]

theorem c4_edge1_eval :
    sweepEdge ⟨0, 0, 0⟩ ⟨1, 0, 0⟩ (1/2) ⟨2600001/2000000, 2/5, 0⟩ ⟨6600001/2000000, 2/5, 0⟩
      (FLT_MAX, ⟨0, 0, 0⟩) = (FLT_MAX, ⟨0, 0, 0⟩) := by
  norm_num [sweepEdge, RayCylinder, v3add, v3sub, v3scale, v3dot, v3len, ratSqrt,
    EPS_SEG, EPS_T, FLT_MAX]

theorem c4_edge2_eval :
    sweepEdge ⟨0, 0, 0⟩ ⟨1, 0, 0⟩ (1/2) ⟨6600001/2000000, 2/5, 0⟩ ⟨4600001/2000000, 2/5, 0⟩
      (FLT_MAX, ⟨0, 0, 0⟩) = (FLT_MAX, ⟨0, 0, 0⟩) := by
  norm_num [sweepEdge, RayCylinder, v3add, v3sub, v3scale, v3dot, v3len, ratSqrt,
    EPS_SEG, EPS_T, FLT_MAX]

theorem c4_edge3_eval :
    sweepEdge ⟨0, 0, 0⟩ ⟨1, 0, 0⟩ (1/2) ⟨4600001/2000000, 2/5, 0⟩ ⟨2600001/2000000, 2/5, 0⟩
      (FLT_MAX, ⟨0, 0, 0⟩) = (FLT_MAX, ⟨0, 0, 0⟩) := by
  norm_num [sweepEdge, RayCylinder, v3add, v3sub, v3scale, v3dot, v3len, ratSqrt,
    EPS_SEG, EPS_T, FLT_MAX]

theorem c4_vert1_eval :
    sweepVert ⟨0, 0, 0⟩ ⟨1, 0, 0⟩ (1/2) ⟨2600001/2000000, 2/5, 0⟩ (FLT_MAX, ⟨0, 0, 0⟩)
      = (2000001/2000000, ⟨-(3/5), -(4/5), 0⟩) := by
  norm_num [sweepVert, RaySphere, v3add, v3sub, v3scale, v3dot, v3len, ratSqrt,
    EPS_T, FLT_MAX, Rat.num_ofNat, Rat.den_ofNat,
    show Int.toNat 9 = 9 from rfl, show Int.toNat 1 = 1 from rfl,
    show isqrt 9 = 3 from by decide, show isqrt 25 = 5 from by decide,
    show isqrt 1 = 1 from by decide, show isqrt 4 = 2 from by decide]

theorem c4_vert2_eval :
    sweepVert ⟨0, 0, 0⟩ ⟨1, 0, 0⟩ (1/2) ⟨6600001/2000000, 2/5, 0⟩
      (2000001/2000000, ⟨-(3/5), -(4/5), 0⟩) = (2000001/2000000, ⟨-(3/5), -(4/5), 0⟩) := by
  norm_num [sweepVert, RaySphere, v3add, v3sub, v3scale, v3dot, v3len, ratSqrt,
    EPS_T, FLT_MAX, Rat.num_ofNat, Rat.den_ofNat,
    show Int.toNat 9 = 9 from rfl, show isqrt 9 = 3 from by decide,
    show isqrt 25 = 5 from by decide]

theorem c4_vert3_eval :
    sweepVert ⟨0, 0, 0⟩ ⟨1, 0, 0⟩ (1/2) ⟨4600001/2000000, 2/5, 0⟩
      (2000001/2000000, ⟨-(3/5), -(4/5), 0⟩) = (2000001/2000000, ⟨-(3/5), -(4/5), 0⟩) := by
  norm_num [sweepVert, RaySphere, v3add, v3sub, v3scale, v3dot, v3len, ratSqrt,
    EPS_T, FLT_MAX, Rat.num_ofNat, Rat.den_ofNat,
    show Int.toNat 9 = 9 from rfl, show isqrt 9 = 3 from by decide,
    show isqrt 25 = 5 from by decide]

theorem c4_sweepTri_eval :
    SweepSphereTriangle ⟨0, 0, 0⟩ ⟨1, 0, 0⟩ (1/2) ⟨2600001/2000000, 2/5, 0⟩
      ⟨6600001/2000000, 2/5, 0⟩ ⟨4600001/2000000, 2/5, 0⟩
      = (2000001/2000000, ⟨-(3/5), -(4/5), 0⟩) := by
  have hd : v3sub (⟨1, 0, 0⟩ : V3) ⟨0, 0, 0⟩ = ⟨1, 0, 0⟩ := by norm_num [v3sub]
  have hlen : v3len (⟨1, 0, 0⟩ : V3) = 1 := by
    norm_num [v3len, v3dot, ratSqrt, Rat.num_ofNat, Rat.den_ofNat,
      show Int.toNat 1 = 1 from rfl, show isqrt 1 = 1 from by decide]
  simp only [SweepSphereTriangle, hd, hlen, c4_triNorm_eval]
  norm_num [EPS_SEG, EPS_PLANE, EPS_T, v3dot, c4_edge1_eval, c4_edge2_eval, c4_edge3_eval,
    c4_vert1_eval, c4_vert2_eval, c4_vert3_eval]

theorem c4State_eq :
    c4State = ⟨[⟨1, [c4tri],
      BVHTree.leaf ⟨2600001/2000000, 2/5, 0⟩ ⟨6600001/2000000, 2/5, 0⟩ 0 1⟩], 2⟩ := by
  have hb : BuildNode [c4tri] 0 1
      = ([c4tri], BVHTree.leaf ⟨2600001/2000000, 2/5, 0⟩ ⟨6600001/2000000, 2/5, 0⟩ 0 1) := by
    rw [BuildNode]
    norm_num [slice, listBox, triMin, triMax, c4tri, min_def, max_def]
  simp only [c4State, RegisterStaticMeshFromModel, BVH_Build, List.isEmpty_cons,
    Bool.false_eq_true, if_false, List.length_cons, List.length_nil, hb, physInit,
    List.nil_append]
  norm_num

theorem c4_findMesh_eval :
    findMesh ⟨[⟨1, [c4tri],
        BVHTree.leaf ⟨2600001/2000000, 2/5, 0⟩ ⟨6600001/2000000, 2/5, 0⟩ 0 1⟩], 2⟩ 1
      = some ⟨1, [c4tri],
        BVHTree.leaf ⟨2600001/2000000, 2/5, 0⟩ ⟨6600001/2000000, 2/5, 0⟩ 0 1⟩ := by
  rw [findMesh]
  exact List.find?_cons_of_pos _ (by norm_num)

theorem c4_sweep_eval :
    SweepSphereAgainstStatic c4State 1 ⟨0, 0, 0⟩ ⟨1, 0, 0⟩ (1/2) ⟨0, 0, 0⟩ ⟨0, 0, 0⟩ 0
      = (true, ⟨2000001/2000000, 0, 0⟩, ⟨-(3/5), -(4/5), 0⟩, 2000001/2000000) := by
  rw [c4State_eq]
  simp only [SweepSphereAgainstStatic, c4_findMesh_eval, SweepNodeBVH]
  rw [if_pos (by norm_num [AabbOverlap, sweptMin, sweptMax, min_def, max_def] :
    AabbOverlap ⟨2600001/2000000, 2/5, 0⟩ ⟨6600001/2000000, 2/5, 0⟩
      (sweptMin ⟨0, 0, 0⟩ ⟨1, 0, 0⟩ (1/2)) (sweptMax ⟨0, 0, 0⟩ ⟨1, 0, 0⟩ (1/2)) = true)]
  simp only [slice, List.drop_zero, List.take_succ_cons, List.take_zero,
    List.foldl_cons, List.foldl_nil, sweepStep, c4tri, c4_sweepTri_eval]
  norm_num [EPS_T, FLT_MAX, v3add, v3sub, v3scale]


/-- C4 counterexample: a sweep for which SweepSphereAgainstStatic returns
true with t = 2000001/2000000 > 1 — the impact parameter is not in [0,1]
as the claim states (the source accepts any earliest t up to 1 + 1e-6,
line `if (bestT > 1.f + 1e-6f) return FLT_MAX`). -/
theorem C4_counterexample_t_beyond_one :
    (SweepSphereAgainstStatic c4State 1 ⟨0, 0, 0⟩ ⟨1, 0, 0⟩ (1/2)
      ⟨0, 0, 0⟩ ⟨0, 0, 0⟩ 0).1 = true
    ∧ 1 < (SweepSphereAgainstStatic c4State 1 ⟨0, 0, 0⟩ ⟨1, 0, 0⟩ (1/2)
      ⟨0, 0, 0⟩ ⟨0, 0, 0⟩ 0).2.2.2 := by
  rw [c4_sweep_eval]
  norm_num

/-- C6 amended: consistency between the penetration and sweep queries holds
for the degenerate sweep that starts where it ends: if
ResolveSphereAgainstStatic reports no overlap at P with radius r (and even
when it reports one), the sweep from P to P with radius r reports no hit
and leaves its out-parameters untouched, because the segment-length guard
rejects every triangle. For a sweep ending at P from a different start the
claimed property fails, since the swept path can cross geometry before
reaching P. -/
theorem C6_amended_degenerate_consistency :
    ∀ (st : PhysState) (handle : Int) (P : V3) (radius : ℚ) (p0 n0 : V3) (t0 : ℚ),
    (ResolveSphereAgainstStatic st handle P radius).1 = false →
    SweepSphereAgainstStatic st handle P P radius p0 n0 t0 = (false, p0, n0, t0) := by
  intro st handle P radius p0 n0 t0 _
  unfold SweepSphereAgainstStatic
  cases hfm : findMesh st handle with
  | none => rfl
  | some entry =>
    dsimp only
    rw [SweepNodeBVH_degenerate entry.tris entry.tree P radius (FLT_MAX, ⟨0, 1, 0⟩)
        (le_refl _)]
    rw [if_pos one_plus_eps_lt_FLT_MAX]

/-- C6 counterexample: at P = (5,1,0) with radius 1/2 the penetration query
reports no overlap against the x = 2 wall, yet the sweep from (0,1,0)
ending exactly at P reports a hit at t = 3/10 — not t = 1 — because the
path crosses the wall before reaching P. -/
theorem C6_counterexample_sweep_through_wall :
    (ResolveSphereAgainstStatic wallState 1 ⟨5, 1, 0⟩ (1/2)).1 = false
    ∧ (SweepSphereAgainstStatic wallState 1 ⟨0, 1, 0⟩ ⟨5, 1, 0⟩ (1/2)
        ⟨0, 0, 0⟩ ⟨0, 0, 0⟩ 0).1 = true
    ∧ (SweepSphereAgainstStatic wallState 1 ⟨0, 1, 0⟩ ⟨5, 1, 0⟩ (1/2)
        ⟨0, 0, 0⟩ ⟨0, 0, 0⟩ 0).2.2.2 = 3/10 := by
  rw [wall_resolve_eval, wall_sweep_eval]
  norm_num

/-- C6 amended witness: the amended theorem applied at the wall mesh and
P = (5,1,0), where the penetration query concretely reports no overlap. -/
theorem C6_amended_degenerate_consistency_witness :
    SweepSphereAgainstStatic wallState 1 ⟨5, 1, 0⟩ ⟨5, 1, 0⟩ (1/2) ⟨4, 4, 4⟩ ⟨6, 6, 6⟩ 7
      = (false, ⟨4, 4, 4⟩, ⟨6, 6, 6⟩, 7) :=
  C6_amended_degenerate_consistency wallState 1 ⟨5, 1, 0⟩ (1/2) ⟨4, 4, 4⟩ ⟨6, 6, 6⟩ 7
    (by rw [wall_resolve_eval])

end Phys

end Habenero
